import Mathlib

/-! # secp256k1 field and group arithmetic (`pkg/secp256k1/secp256k1.go`)

A shallow embedding of the Go package.  Arbitrary-precision integers are handled in the
source through `*big.Int` pointers, and the source compares such pointers with `==`, which
in Go is address identity.  The embedding therefore keeps, for every `*big.Int`, the identity
of the allocation next to the integer stored in it, and threads an allocation counter through
every function in the order the source allocates.
-/

namespace Secp256k1

/-- The error values declared by the package (`errors.New` variables). -/
inductive Err
  | ErrDenIsZero
  | ErrSqrtFailed
  | ErrNumOutOfFeSize
  | ErrGeCreationFailed
  | ErrAddFailed
deriving DecidableEq, Repr

deriving instance DecidableEq for Except

/-- A non-nil `*big.Int`: `addr` is the identity of the allocation it points to, `val` the
integer stored there.  No function of the package writes to a `big.Int` after the call that
produced it, so the stored integer never changes. -/
structure BigInt where
  addr : Nat
  val : Int
deriving DecidableEq, Repr

/-- A Go computation.  The argument is the allocation counter (the identity the next
allocation receives); `none` is a run-time panic, `some (v, h)` is a normal return of `v`
with the counter advanced to `h`. -/
def Go (α : Type) : Type := Nat → Option (α × Nat)

/-- Normal return. -/
def Go.ret {α : Type} (v : α) : Go α := fun h => some (v, h)

/-- Sequencing: a panic of the first computation aborts the whole. -/
def Go.andThen {α β : Type} (m : Go α) (f : α → Go β) : Go β := fun h =>
  match m h with
  | none => none
  | some (v, h1) => f v h1

instance : Monad Go where
  pure := Go.ret
  bind := Go.andThen

/-- Run-time panic (nil pointer dereference). -/
def Go.panic {α : Type} : Go α := fun _ => none

/-- What a computation returns when started at counter `h`, the final counter dropped. -/
def Go.result {α : Type} (m : Go α) (h : Nat) : Option α := (m h).map Prod.fst

/-- The expression `new(big.Int)`: a fresh allocation, identified by the counter. -/
def new : Go Nat := fun h => some (h, h + 1)

/-- Dereference of a possibly nil `*big.Int`; nil panics. -/
def deref {α : Type} : Option α → Go α
  | none => Go.panic
  | some x => Go.ret x

/-- Go `==` on two non-nil `*big.Int`: the operands are equal when they are the same
allocation; the stored integers are not looked at. -/
def ptrEq (x y : BigInt) : Bool := decide (x.addr = y.addr)

/-- Go `==` on two `*big.Int` of which the left one may be nil. -/
def ptrEqNil : Option BigInt → BigInt → Bool
  | none, _ => false
  | some x, y => ptrEq x y

/-! ## `math/big`

The methods of `math/big` that the package calls, after the documentation of that library.
Each takes the receiver `z` (an allocation) first, stores its result there and returns it.
-/

namespace Big

/-- Method `z.SetInt64(k)`. -/
def SetInt64 (z : Nat) (k : Int) : BigInt := ⟨z, k⟩

/-- Function `big.NewInt(k)`: allocates and returns a new `Int` set to `k`. -/
def NewInt (k : Int) : Go BigInt := fun h => some (⟨h, k⟩, h + 1)

/-- Method `z.Add(x, y)`. -/
def Add (z : Nat) (x y : BigInt) : BigInt := ⟨z, x.val + y.val⟩

/-- Method `z.Sub(x, y)`. -/
def Sub (z : Nat) (x y : BigInt) : BigInt := ⟨z, x.val - y.val⟩

/-- Method `z.Mul(x, y)`. -/
def Mul (z : Nat) (x y : BigInt) : BigInt := ⟨z, x.val * y.val⟩

/-- Method `z.Mod(x, m)` for a modulus `m ≠ 0`: Euclidean modulus, the result is in
`[0, |m|)`. -/
def Mod (z : Nat) (x : BigInt) (m : Int) : BigInt := ⟨z, x.val % m⟩

/-- Extended Euclid on the remainder sequence `r, r1` with the coefficients `s, s1` of the
first operand; returns the last non-zero remainder and its coefficient.  The first argument
bounds the number of steps. -/
def egcd : Nat → Int → Int → Int → Int → Int × Int
  | 0, r, s, _, _ => (r, s)
  | fuel + 1, r, s, r1, s1 =>
    if r1 = 0 then (r, s) else egcd fuel r1 s1 (r % r1) (s - (r / r1) * s1)

/-- Method `ModInverse(g, n)` for `n > 0`: the inverse of `g` in `ℤ/nℤ`, in `[0, n)`, and
nil when `g` and `n` are not relatively prime. -/
def ModInverse (g n : Int) : Option Int :=
  let p := egcd (n.toNat + 1) (g % n) 1 n 0
  if p.1 = 1 then some (p.2 % n) else none

/-- Value of `Exp(x, y, m)` for a modulus `m > 0`: `x ^ y mod m` in `[0, m)`; for `y < 0`
the power `|y|` of the inverse of `x` modulo `m`, and nil when `x` has no inverse.  The
lemmas below use the case `y < 0` only with `x ≥ 0`. -/
def expVal (x y m : Int) : Option Int :=
  if 0 ≤ y then some (x ^ y.toNat % m)
  else (ModInverse x m).map fun i => i ^ (-y).toNat % m

/-- Method `z.Exp(x, y, m)`; returns nil, leaving `z` as it was, when `y < 0` and `x` has no
inverse modulo `m`. -/
def Exp (z : Nat) (x y : BigInt) (m : Int) : Option BigInt :=
  (expVal x.val y.val m).map fun v => ⟨z, v⟩

end Big

/-- Function `GetFeSize()`: `2^256 - 2^32 - 977`, computed with `Exp` without modulus and
two `Sub`.  The three operands are natural numbers and the differences are positive. -/
def GetFeSize : Int := Int.ofNat (2 ^ 256 - 2 ^ 32 - 977)

/-- The package variable `FE_SIZE`, the field prime. -/
def FE_SIZE : Int := GetFeSize

/-- The struct `FE`: numerator and denominator, both non-nil `*big.Int`. -/
structure FE where
  Num : BigInt
  Den : BigInt
deriving DecidableEq, Repr

/-- Function `NewFE(_num, _den)`.  `num` and `den` are fresh allocations; both tests
compare one of them with a `big.Int` allocated in the test itself. -/
def NewFE (_num _den : BigInt) : Go (Except Err FE) := do
  let num := Big.Mod (← new) _num FE_SIZE
  let mut den := Big.Mod (← new) _den FE_SIZE
  if ptrEq den (Big.SetInt64 (← new) 0) then
    return .error .ErrDenIsZero
  if ptrEq num (Big.SetInt64 (← new) 0) then
    den := Big.SetInt64 (← new) 1
  return .ok ⟨num, den⟩

/-- Function `Add(a, b)` on field elements (the first of the two package-level functions the
source names `Add`).  The second product is `b.Den * a.Num`, as in the source. -/
def Add (a b : FE) : Go (Except Err FE) := do
  let z ← new
  let newNum := Big.Add z (Big.Mul (← new) a.Num b.Den) (Big.Mul (← new) b.Den a.Num)
  let newDen := Big.Mul (← new) a.Den b.Den
  NewFE newNum newDen

/-- Function `Sub(a, b)`.  The second product is `b.Den * a.Num`, as in the source. -/
def Sub (a b : FE) : Go (Except Err FE) := do
  let z ← new
  let newNum := Big.Sub z (Big.Mul (← new) a.Num b.Den) (Big.Mul (← new) b.Den a.Num)
  let newDen := Big.Mul (← new) a.Den b.Den
  NewFE newNum newDen

/-- Function `Mul(a, b)`. -/
def Mul (a b : FE) : Go (Except Err FE) := do
  let newNum := Big.Mul (← new) a.Num b.Num
  let newDen := Big.Mul (← new) a.Den b.Den
  NewFE newNum newDen

/-- Function `ScalarMul(a, b)`; the denominator pointer is passed on as it is. -/
def ScalarMul (a : FE) (b : BigInt) : Go (Except Err FE) := do
  let newNum := Big.Mul (← new) a.Num b
  let newDen := a.Den
  NewFE newNum newDen

/-- Function `Pow(a, b)`.  A nil result of `Exp` reaches `NewFE`, whose first use of it
(`Mod`) dereferences it. -/
def Pow (a : FE) (b : BigInt) : Go (Except Err FE) := do
  let newNum := Big.Exp (← new) a.Num b FE_SIZE
  let newDen := Big.Exp (← new) a.Den b FE_SIZE
  NewFE (← deref newNum) (← deref newDen)

/-- Function `ToBigInt(a)`.  Returns the pointer `num` (nil when the branch is not taken)
together with the receiver `a` as the call leaves it: the source assigns `a.Num` and
`a.Den` in place. -/
def ToBigInt (a : FE) : Go (Option BigInt × FE) := do
  if !ptrEq a.Den (← Big.NewInt 1) then
    let z ← new
    let x := Big.Exp z a.Den (← Big.NewInt (-1)) FE_SIZE
    let num := Big.Mul (← new) a.Num (← deref x)
    return (some num, ⟨num, ← Big.NewInt 1⟩)
  return (none, a)

/-- Function `Eq(a, b)`: the reduced cross difference, a fresh allocation, is compared with
`big.NewInt(0)`, another fresh allocation. -/
def Eq (a b : FE) : Go Bool := do
  let z ← new
  let d := Big.Sub (← new) (Big.Mul (← new) a.Num b.Den) (Big.Mul (← new) b.Num a.Den)
  return ptrEq (Big.Mod z d FE_SIZE) (← Big.NewInt 0)

/-- The struct `GE`: the coordinates are `*FE` pointers, nil in the point at infinity. -/
structure GE where
  X : Option FE
  Y : Option FE
  Inf : Bool
deriving DecidableEq, Repr

/-- Function `NewGE(x, y)`.  On success the struct is built from `fx` and `fy`, as in the
source. -/
def NewGE (x y : FE) : Go (Except Err GE) := do
  match ← Pow y (← Big.NewInt 2) with
  | .error e => return .error e
  | .ok fy =>
  match ← Pow x (← Big.NewInt 3) with
  | .error e => return .error e
  | .ok fx =>
  match ← NewFE (← Big.NewInt 7) (← Big.NewInt 1) with
  | .error e => return .error e
  | .ok scalar =>
  match ← Add fx scalar with
  | .error e => return .error e
  | .ok add =>
  if ← Eq add fy then
    return .ok ⟨some fx, some fy, false⟩
  return .error .ErrGeCreationFailed

/-- Function `NewInfGE()`. -/
def NewInfGE : GE := ⟨none, none, true⟩

/-- Function `Add(a, b)` on group elements (the second of the two package-level functions the
source names `Add`).  Reading a coordinate of a point whose `X` or `Y` is nil panics.  The
receivers that `ToBigInt` rewrites are local to the call and not used afterwards. -/
def GE.Add (a b : GE) : Go (Except Err GE) := do
  let mut lam : Option FE := none
  if a.Inf then
    return .ok b
  else if b.Inf then
    return .ok a
  else
    let ax ← deref a.X
    let bx ← deref b.X
    if ← Eq ax bx then
      let ay ← deref a.Y
      let by1 ← deref b.Y
      if !(← Eq ay by1) then
        let r ← Secp256k1.Add ay by1
        let add ← deref r.toOption
        let v ← ToBigInt add
        if ptrEqNil v.1 (← Big.NewInt 0) then
          return .ok ⟨none, none, true⟩
        else
          match r with
          | .error e => return .error e
          | .ok _ => return .error .ErrAddFailed
      else
        match ← Pow ax (← Big.NewInt 2) with
        | .error e => return .error e
        | .ok pow1 =>
        match ← ScalarMul pow1 (← Big.NewInt 3) with
        | .error e => return .error e
        | .ok num1 =>
        match ← ScalarMul ay (← Big.NewInt 2) with
        | .error e => return .error e
        | .ok den1 =>
        let num2 ← ToBigInt num1
        let den2 ← ToBigInt den1
        match ← NewFE (← deref num2.1) (← deref den2.1) with
        | .error e => return .error e
        | .ok fe =>
        lam := some fe
    else
      let ay ← deref a.Y
      let by1 ← deref b.Y
      match ← Sub ay by1 with
      | .error e => return .error e
      | .ok num1 =>
      match ← Sub ax bx with
      | .error e => return .error e
      | .ok den1 =>
      let num2 ← ToBigInt num1
      let den2 ← ToBigInt den1
      match ← NewFE (← deref num2.1) (← deref den2.1) with
      | .error e => return .error e
      | .ok fe =>
      lam := some fe
  let lam1 ← deref lam
  let ax ← deref a.X
  let bx ← deref b.X
  let ay ← deref a.Y
  match ← Pow lam1 (← Big.NewInt 2) with
  | .error e => return .error e
  | .ok f1 =>
  match ← Secp256k1.Add ax bx with
  | .error e => return .error e
  | .ok f2 =>
  match ← Sub f1 f2 with
  | .error e => return .error e
  | .ok x =>
  match ← Sub ax x with
  | .error e => return .error e
  | .ok f3 =>
  match ← Mul lam1 f3 with
  | .error e => return .error e
  | .ok f4 =>
  match ← Sub f4 ay with
  | .error e => return .error e
  | .ok y =>
  NewGE x y

/-- Modelled from the spec: the x-coordinate of the generator `G`, which the source lists
among its exports but does not define.  A canonical field element (denominator one); its two
`big.Int` are the allocations `0` and `1`. -/
def Gx : FE :=
  ⟨⟨0, 0x79BE667EF9DCBBAC55A06295CE870B07029BFCDB2DCE28D959F2815B16F81798⟩, ⟨1, 1⟩⟩

/-- Modelled from the spec: the y-coordinate of the generator `G`, in the allocations `2`
and `3`. -/
def Gy : FE :=
  ⟨⟨2, 0x483ADA7726A3C4655DA4FBFC0E1108A8FD17B448A68554199C47D08FFB10D4B8⟩, ⟨3, 1⟩⟩

/-- Modelled from the spec: the generator `G` as a finite group element, written as a struct
literal. -/
def G : GE := ⟨some Gx, some Gy, false⟩

/-- Modelled from the spec: the point `(G.x, p - G.y)`, the negation of `G`, in the
allocations `4` to `7`. -/
def negG : GE :=
  ⟨some ⟨⟨4, Gx.Num.val⟩, ⟨5, 1⟩⟩, some ⟨⟨6, FE_SIZE - Gy.Num.val⟩, ⟨7, 1⟩⟩, false⟩

/-- Modelled from the spec: the point `2·G` with its publicly known coordinates, in the
allocations `4` to `7`. -/
def G2 : GE :=
  ⟨some ⟨⟨4, 0xC6047F9441ED7D6D3045406E95C07CD85C778E4B8CEF3CA7ABAC09B95C709EE5⟩, ⟨5, 1⟩⟩,
   some ⟨⟨6, 0x1AE168FEA63DC339A3C58419466CEAEEF7F632653266D0E1236431A950CFE52A⟩, ⟨7, 1⟩⟩,
   false⟩

/-- The curve equation `y^2 ≡ x^3 + 7` modulo the field prime, on two integers. -/
def onCurve (x y : Int) : Prop := y ^ 2 % FE_SIZE = (x ^ 3 + 7) % FE_SIZE

instance (x y : Int) : Decidable (onCurve x y) := by unfold onCurve; infer_instance

/-- The representation invariant of field elements in the words of the specification:
numerator in `[0, p)`, denominator in `(0, p)`, and denominator one when the numerator is
zero. -/
def repInv (a : FE) : Prop :=
  0 ≤ a.Num.val ∧ a.Num.val < FE_SIZE ∧ 0 < a.Den.val ∧ a.Den.val < FE_SIZE ∧
    (a.Num.val = 0 → a.Den.val = 1)

instance (a : FE) : Decidable (repInv a) := by unfold repInv; infer_instance

/-! ## The remaining field-element functions -/

namespace Big

/-- Method `z.Div(x, y)` for `y ≠ 0`: Euclidean division. -/
def Div (z : Nat) (x y : BigInt) : BigInt := ⟨z, x.val / y.val⟩

/-- Base-256 digits of a natural number, least significant first, without leading zeros.
The first argument bounds the number of digits. -/
def bytesLE : Nat → Nat → List Nat
  | 0, _ => []
  | fuel + 1, n => if n = 0 then [] else n % 256 :: bytesLE fuel (n / 256)

/-- Method `x.Bytes()`: the absolute value of `x` as a big-endian byte slice without leading
zero bytes (empty for zero). -/
def Bytes (x : BigInt) : List Nat := (bytesLE x.val.natAbs x.val.natAbs).reverse

/-- The unsigned integer that a byte slice spells in big-endian order. -/
def beValue (buf : List Nat) : Nat := buf.foldl (fun acc b => acc * 256 + b) 0

/-- Method `z.SetBytes(buf)`: `buf` read as a big-endian unsigned integer. -/
def SetBytes (z : Nat) (buf : List Nat) : BigInt := ⟨z, (beValue buf : Nat)⟩

/-- Method `x.Text(16)`: the digits of `x` in base 16, lower case, with a leading minus sign
when `x` is negative. -/
def Text16 (x : BigInt) : List Char :=
  if x.val < 0 then '-' :: Nat.toDigits 16 x.val.natAbs else Nat.toDigits 16 x.val.natAbs

end Big

/-- The pointer held by the package variable `FE_SIZE`.  It is allocated when the package is
initialised; no function compares it with `==`, and its identity is written `0`. -/
def FE_SIZE_ptr : BigInt := ⟨0, FE_SIZE⟩

/-- Function `Inv(a)`. -/
def Inv (a : FE) : Go (Except Err FE) := do
  Pow a (Big.SetInt64 (← new) (-1))

/-- Function `Sqrt(a)`.  Returns its result together with the receiver as `ToBigInt` leaves
it.  The test `ss == v` compares the pointer returned by the second `Exp` with the pointer
returned by `ToBigInt`. -/
def Sqrt (a : FE) : Go (Except Err FE × FE) := do
  let r ← ToBigInt a
  let v ← deref r.1
  let z ← new
  let q ← new
  let e := Big.Div q (Big.Add (← new) FE_SIZE_ptr (← Big.NewInt 1)) (← Big.NewInt 4)
  let s ← deref (Big.Exp z v e FE_SIZE)
  let ss ← deref (Big.Exp (← new) s (← Big.NewInt 2) FE_SIZE)
  if ptrEq ss v then
    return (← NewFE s (← Big.NewInt 1), r.2)
  return (.error .ErrSqrtFailed, r.2)

/-- Function `HasSqrt(a)`, with the receiver as the call leaves it. -/
def HasSqrt (a : FE) : Go (Bool × FE) := do
  let r ← Sqrt a
  match r.1 with
  | .error .ErrSqrtFailed => return (false, r.2)
  | _ => return (true, r.2)

/-- Function `ToBytes(a)`, with the receiver as the call leaves it.  `result` starts as 32
zero bytes; `copy` overwrites its tail with the bytes of `num`.  The slice expression
`result[32-len(byteSlice):]` panics when `num` has more than 32 bytes. -/
def ToBytes (a : FE) : Go (List Nat × FE) := do
  let r ← ToBigInt a
  let num ← deref r.1
  let byteSlice := Big.Bytes num
  if 32 < byteSlice.length then Go.panic
  else return (List.replicate (32 - byteSlice.length) 0 ++ byteSlice, r.2)

/-- Function `ToHex(a)`, with the receiver as the call leaves it.  `result` starts as 64
zero bytes (the character with code 0); `copy` overwrites its tail with the characters of
`num.Text(16)`.  The slice expression panics when the text has more than 64 characters. -/
def ToHex (a : FE) : Go (String × FE) := do
  let r ← ToBigInt a
  let num ← deref r.1
  let stringSlice := Big.Text16 num
  if 64 < stringSlice.length then Go.panic
  else return (String.mk (List.replicate (64 - stringSlice.length) (Char.ofNat 0)
    ++ stringSlice), r.2)

/-- Function `FromBytes(a)`; the array `[32]byte` is the list of its bytes, first byte first.
The method `Cmp` returns `-1` exactly when `num < FE_SIZE`. -/
def FromBytes (a : List Nat) : Go (Except Err FE) := do
  let num := Big.SetBytes (← new) a
  if num.val < FE_SIZE then
    NewFE num (← Big.NewInt 1)
  else return .error .ErrNumOutOfFeSize

/-! ## Arithmetic used in the proofs -/

/-- Modular exponentiation by repeated squaring; the first argument bounds the number of
halvings of the exponent. -/
def powMod : Nat → Nat → Nat → Nat → Nat
  | 0, _, _, m => 1 % m
  | fuel + 1, a, e, m =>
    if e = 0 then 1 % m
    else if e % 2 = 0 then powMod fuel a (e / 2) m * powMod fuel a (e / 2) m % m
    else powMod fuel a (e / 2) m * powMod fuel a (e / 2) m % m * a % m

end Secp256k1

/-! # Modular arithmetic over a small modulus (`pkg/fields/field_element.go`)

The Go type `int` is taken as the 64-bit two's complement integer of the common 64-bit
platforms: additions, subtractions and multiplications wrap, `%` is the truncated remainder
and panics on a zero divisor, `^` is bitwise exclusive or.
-/

namespace Fields

/-- The error values declared by the package. -/
inductive Err
  | ErrNumOutOfFieldRange
  | ErrPrimesMustBeSame
  | ErrDivisionByZero
deriving DecidableEq, Repr

/-- The struct `FieldElement`; both fields are Go `int`. -/
structure FieldElement where
  num : Int
  prime : Int
deriving DecidableEq, Repr

/-- The least value of a Go `int`. -/
def minInt : Int := -9223372036854775808

/-- The greatest value of a Go `int`. -/
def maxInt : Int := 9223372036854775807

/-- Reduction of a mathematical integer to the `int` it wraps to. -/
def wrap (x : Int) : Int := (x + 9223372036854775808) % 18446744073709551616 - 9223372036854775808

/-- Go `x % y` on `int`: truncated remainder; a zero divisor is a run-time panic (`none`). -/
def rem (x y : Int) : Option Int := if y = 0 then none else some (Int.tmod x y)

/-- Function `NewFieldElement(num, prime)`. -/
def NewFieldElement (num prime : Int) : Except Err FieldElement :=
  if num ≥ prime ∨ num < 0 then .error .ErrNumOutOfFieldRange
  else .ok ⟨num, prime⟩

/-- Method `fe.Add(other)`; `none` is a run-time panic. -/
def FieldElement.Add (fe other : FieldElement) : Option (Except Err FieldElement) :=
  if fe.prime ≠ other.prime then some (.error .ErrPrimesMustBeSame)
  else (rem (wrap (fe.num + other.num)) fe.prime).map fun sum =>
    NewFieldElement sum fe.prime

/-- Method `fe.Sub(other)`. -/
def FieldElement.Sub (fe other : FieldElement) : Option (Except Err FieldElement) :=
  if fe.prime ≠ other.prime then some (.error .ErrPrimesMustBeSame)
  else (rem (wrap (wrap (fe.num - other.num) + fe.prime)) fe.prime).map fun sum =>
    NewFieldElement sum fe.prime

/-- Method `fe.Mul(other)`. -/
def FieldElement.Mul (fe other : FieldElement) : Option (Except Err FieldElement) :=
  if fe.prime ≠ other.prime then some (.error .ErrPrimesMustBeSame)
  else (rem (wrap (fe.num * other.num)) fe.prime).map fun sum =>
    NewFieldElement sum fe.prime

/-- Method `fe.Pow(exp)`.  The operator between `fe.num` and `n` is Go `^`, bitwise exclusive
or. -/
def FieldElement.Pow (fe : FieldElement) (exp : Int) : Option (Except Err FieldElement) :=
  (rem exp (wrap (fe.prime - 1))).bind fun n =>
    (rem (Int.xor fe.num n) fe.prime).map fun num =>
      NewFieldElement num fe.prime

/-- Method `fe.Inv()`. -/
def FieldElement.Inv (fe : FieldElement) : Option (Except Err FieldElement) :=
  fe.Pow (wrap (fe.prime - 2))

end Fields

namespace Secp256k1

/-! ## The computation monad -/

theorem Go.bind_run {α β : Type} (m : Go α) (f : α → Go β) (h : Nat) :
    (m >>= f) h = (match m h with | none => none | some (v, h1) => f v h1) := rfl

theorem Go.pure_run {α : Type} (v : α) (h : Nat) : (pure v : Go α) h = some (v, h) := rfl

theorem new_run (h : Nat) : new h = some (h, h + 1) := rfl

theorem Big.NewInt_run (k : Int) (h : Nat) : Big.NewInt k h = some (⟨h, k⟩, h + 1) := rfl

theorem deref_some {α : Type} (x : α) (h : Nat) : deref (some x) h = some (x, h) := rfl

theorem deref_none {α : Type} (h : Nat) : deref (none : Option α) h = none := rfl

/-- Two allocations made at different counter values are different pointers. -/
theorem ptrEq_mk (i j : Nat) (v w : Int) : ptrEq ⟨i, v⟩ ⟨j, w⟩ = decide (i = j) := by
  simp [ptrEq]

/-! ## The model of `ModInverse` -/

/-- Extended Euclid keeps its invariants: the returned remainder is congruent modulo `n` to
its coefficient times `g`, divides both remainders it started from, and is not negative. -/
theorem Big.egcd_spec (g n : Int) : ∀ (fuel : Nat) (r s r1 s1 : Int),
    0 ≤ r → 0 ≤ r1 → r1.toNat < fuel → n ∣ r - s * g → n ∣ r1 - s1 * g →
    n ∣ (Big.egcd fuel r s r1 s1).1 - (Big.egcd fuel r s r1 s1).2 * g ∧
    (Big.egcd fuel r s r1 s1).1 ∣ r ∧ (Big.egcd fuel r s r1 s1).1 ∣ r1 ∧
    0 ≤ (Big.egcd fuel r s r1 s1).1 := by
  intro fuel
  induction fuel with
  | zero => intro r s r1 s1 _ _ hf; omega
  | succ k ih =>
    intro r s r1 s1 hr hr1 hf h1 h2
    by_cases hz : r1 = 0
    · subst hz
      simp [Big.egcd, h1, hr]
    · have hpos : 0 < r1 := lt_of_le_of_ne hr1 (Ne.symm hz)
      have hm0 : 0 ≤ r % r1 := Int.emod_nonneg _ hz
      have hm1 : r % r1 < r1 := Int.emod_lt_of_pos _ hpos
      have hd : n ∣ r % r1 - (s - r / r1 * s1) * g := by
        have e : r % r1 - (s - r / r1 * s1) * g = (r - s * g) - (r / r1) * (r1 - s1 * g) := by
          rw [Int.emod_def]; ring
        rw [e]
        exact dvd_sub h1 (Dvd.dvd.mul_left h2 _)
      obtain ⟨a1, a2, a3, a4⟩ := ih r1 s1 (r % r1) (s - r / r1 * s1) hr1 hm0 (by omega) h2 hd
      simp only [Big.egcd, hz, if_false]
      refine ⟨a1, ?_, a2, a4⟩
      have e := dvd_add (Dvd.dvd.mul_right a2 (r / r1)) a3
      rwa [Int.ediv_add_emod] at e

/-- A result of `ModInverse` is an inverse of `g` modulo `n`, in `[0, n)`. -/
theorem Big.ModInverse_some (g n i : Int) (hn : 0 < n) (h : Big.ModInverse g n = some i) :
    0 ≤ i ∧ i < n ∧ g * i % n = 1 % n := by
  unfold Big.ModInverse at h
  obtain ⟨a1, -, -, -⟩ := Big.egcd_spec g n (n.toNat + 1) (g % n) 1 n 0
    (Int.emod_nonneg _ (ne_of_gt hn)) (le_of_lt hn) (by omega)
    ⟨-(g / n), by rw [Int.emod_def]; ring⟩
    (by simp)
  simp only at h
  split at h
  · rename_i h1
    rw [h1] at a1
    injection h with h
    subst h
    refine ⟨Int.emod_nonneg _ (ne_of_gt hn), Int.emod_lt_of_pos _ hn, ?_⟩
    have : (Big.egcd (n.toNat + 1) (g % n) 1 n 0).2 * g % n = 1 % n :=
      (Int.emod_eq_emod_iff_emod_sub_eq_zero.mpr (Int.emod_eq_zero_of_dvd a1)).symm
    rw [Int.mul_emod, Int.emod_emod_of_dvd _ (dvd_refl n), ← Int.mul_emod, mul_comm]
    exact this
  · exact absurd h (by simp)

/-- The function `ModInverse` returns a value whenever `g` and `n` are relatively prime. -/
theorem Big.ModInverse_isSome (g n : Int) (hn : 0 < n) (hc : IsCoprime g n) :
    (Big.ModInverse g n).isSome = true := by
  unfold Big.ModInverse
  obtain ⟨-, a2, a3, a4⟩ := Big.egcd_spec g n (n.toNat + 1) (g % n) 1 n 0
    (Int.emod_nonneg _ (ne_of_gt hn)) (le_of_lt hn) (by omega)
    ⟨-(g / n), by rw [Int.emod_def]; ring⟩
    (by simp)
  have hg : (Big.egcd (n.toNat + 1) (g % n) 1 n 0).1 ∣ g := by
    have e := dvd_add (Dvd.dvd.mul_right a3 (g / n)) a2
    rwa [Int.ediv_add_emod] at e
  have hu : IsUnit (Big.egcd (n.toNat + 1) (g % n) 1 n 0).1 := hc.isUnit_of_dvd' hg a3
  have h1 : (Big.egcd (n.toNat + 1) (g % n) 1 n 0).1 = 1 := by
    rcases Int.isUnit_iff.mp hu with h | h
    · exact h
    · omega
  simp [h1]

/-! ## Primality of the field prime -/

/-- With enough fuel `powMod` is the power reduced modulo `m`. -/
theorem powMod_eq : ∀ (fuel a e m : Nat), e ≤ fuel → powMod fuel a e m = a ^ e % m := by
  intro fuel
  induction fuel with
  | zero =>
    intro a e m he
    have : e = 0 := by omega
    subst this
    simp [powMod]
  | succ k ih =>
    intro a e m he
    by_cases hz : e = 0
    · subst hz
      simp [powMod]
    · have hlt : e / 2 ≤ k := by omega
      have hh := ih a (e / 2) m hlt
      by_cases hpar : e % 2 = 0
      · simp only [powMod, hz, hpar, if_false, if_true, hh]
        have e2 : e = e / 2 + e / 2 := by omega
        conv_rhs => rw [e2, pow_add]
        rw [← Nat.mul_mod]
      · simp only [powMod, hz, hpar, if_false, hh]
        have e2 : e = e / 2 + e / 2 + 1 := by omega
        conv_rhs => rw [e2, pow_succ, pow_add]
        rw [← Nat.mul_mod, Nat.mod_mul_mod]

/-- A power is one in `ZMod N` exactly when `powMod` computes one. -/
theorem zmod_pow_eq_one_iff (N a k : Nat) (hN : 1 < N) :
    ((a : ZMod N) ^ k = 1) ↔ powMod k a k N = 1 := by
  rw [powMod_eq k a k N (le_refl k), ← Nat.cast_pow, ← Nat.cast_one (R := ZMod N),
    ZMod.natCast_eq_natCast_iff', Nat.mod_eq_of_lt hN]

/-- Lucas test from a certificate: the prime factors of `N - 1` and a witness `a` of order
`N - 1`. -/
theorem lucas_cert (N a : Nat) (l : List Nat) (hN : 1 < N) (hprod : l.prod = N - 1)
    (hl : ∀ q ∈ l, q.Prime) (h1 : powMod (N - 1) a (N - 1) N = 1)
    (h2 : ∀ q ∈ l, powMod ((N - 1) / q) a ((N - 1) / q) N ≠ 1) : N.Prime := by
  apply lucas_primality N (a : ZMod N)
  · exact (zmod_pow_eq_one_iff N a (N - 1) hN).2 h1
  · intro q hq hdvd
    rw [← hprod] at hdvd
    obtain ⟨x, hx, hqx⟩ := (Prime.dvd_prod_iff hq.prime).1 hdvd
    have hqe : q = x := (Nat.prime_dvd_prime_iff_eq hq (hl x hx)).1 hqx
    subst hqe
    intro hc
    exact h2 q hx ((zmod_pow_eq_one_iff N a ((N - 1) / q) hN).1 hc)

/-- The number 7 is prime. -/
theorem prime_7 : Nat.Prime 7 := by norm_num

/-- The number below is prime: 11 has order `N - 1` modulo it. -/
theorem prime_13441 :
    Nat.Prime 13441 :=
  lucas_cert 13441 11
    [2, 2, 2, 2, 2, 2, 2, 3, 5, 7]
    (by norm_num) (by norm_num)
    (by
      simp only [List.mem_cons, List.mem_singleton, forall_eq_or_imp, forall_eq,
        List.not_mem_nil, false_implies, implies_true, and_true]
      exact ⟨Nat.prime_two, Nat.prime_two, Nat.prime_two, Nat.prime_two, Nat.prime_two,
        Nat.prime_two, Nat.prime_two, Nat.prime_three, Nat.prime_five, prime_7⟩)
    (by decide!) (by decide!)

/-- The number 29 is prime. -/
theorem prime_29 : Nat.Prime 29 := by norm_num

/-- The number 31 is prime. -/
theorem prime_31 : Nat.Prime 31 := by norm_num

/-- The number 11 is prime. -/
theorem prime_11 : Nat.Prime 11 := by norm_num

/-- The number 13 is prime. -/
theorem prime_13 : Nat.Prime 13 := by norm_num

/-- The number below is prime: 3 has order `N - 1` modulo it. -/
theorem prime_7723 :
    Nat.Prime 7723 :=
  lucas_cert 7723 3
    [2, 3, 3, 3, 11, 13]
    (by norm_num) (by norm_num)
    (by
      simp only [List.mem_cons, List.mem_singleton, forall_eq_or_imp, forall_eq,
        List.not_mem_nil, false_implies, implies_true, and_true]
      exact ⟨Nat.prime_two, Nat.prime_three, Nat.prime_three, Nat.prime_three, prime_11, prime_13⟩)
    (by decide!) (by decide!)

/-- The number 887 is prime. -/
theorem prime_887 : Nat.Prime 887 := by norm_num

/-- The number below is prime: 5 has order `N - 1` modulo it. -/
theorem prime_5323 :
    Nat.Prime 5323 :=
  lucas_cert 5323 5
    [2, 3, 887]
    (by norm_num) (by norm_num)
    (by
      simp only [List.mem_cons, List.mem_singleton, forall_eq_or_imp, forall_eq,
        List.not_mem_nil, false_implies, implies_true, and_true]
      exact ⟨Nat.prime_two, Nat.prime_three, prime_887⟩)
    (by decide!) (by decide!)

/-- The number 131 is prime. -/
theorem prime_131 : Nat.Prime 131 := by norm_num

/-- The number below is prime: 2 has order `N - 1` modulo it. -/
theorem prime_2621 :
    Nat.Prime 2621 :=
  lucas_cert 2621 2
    [2, 2, 5, 131]
    (by norm_num) (by norm_num)
    (by
      simp only [List.mem_cons, List.mem_singleton, forall_eq_or_imp, forall_eq,
        List.not_mem_nil, false_implies, implies_true, and_true]
      exact ⟨Nat.prime_two, Nat.prime_two, Nat.prime_five, prime_131⟩)
    (by decide!) (by decide!)

/-- The number 443 is prime. -/
theorem prime_443 : Nat.Prime 443 := by norm_num

/-- The number below is prime: 6 has order `N - 1` modulo it. -/
theorem prime_24809 :
    Nat.Prime 24809 :=
  lucas_cert 24809 6
    [2, 2, 2, 7, 443]
    (by norm_num) (by norm_num)
    (by
      simp only [List.mem_cons, List.mem_singleton, forall_eq_or_imp, forall_eq,
        List.not_mem_nil, false_implies, implies_true, and_true]
      exact ⟨Nat.prime_two, Nat.prime_two, Nat.prime_two, prime_7, prime_443⟩)
    (by decide!) (by decide!)

/-- The number 971 is prime. -/
theorem prime_971 : Nat.Prime 971 := by norm_num

/-- The number below is prime: 2 has order `N - 1` modulo it. -/
theorem prime_1373 :
    Nat.Prime 1373 :=
  lucas_cert 1373 2
    [2, 2, 7, 7, 7]
    (by norm_num) (by norm_num)
    (by
      simp only [List.mem_cons, List.mem_singleton, forall_eq_or_imp, forall_eq,
        List.not_mem_nil, false_implies, implies_true, and_true]
      exact ⟨Nat.prime_two, Nat.prime_two, prime_7, prime_7, prime_7⟩)
    (by decide!) (by decide!)

/-- The number below is prime: 13 has order `N - 1` modulo it. -/
theorem prime_13331831 :
    Nat.Prime 13331831 :=
  lucas_cert 13331831 13
    [2, 5, 971, 1373]
    (by norm_num) (by norm_num)
    (by
      simp only [List.mem_cons, List.mem_singleton, forall_eq_or_imp, forall_eq,
        List.not_mem_nil, false_implies, implies_true, and_true]
      exact ⟨Nat.prime_two, Nat.prime_five, prime_971, prime_1373⟩)
    (by decide!) (by decide!)

/-- The number below is prime: 6 has order `N - 1` modulo it. -/
theorem prime_173378833005251801 :
    Nat.Prime 173378833005251801 :=
  lucas_cert 173378833005251801 6
    [2, 2, 2, 5, 5, 2621, 24809, 13331831]
    (by norm_num) (by norm_num)
    (by
      simp only [List.mem_cons, List.mem_singleton, forall_eq_or_imp, forall_eq,
        List.not_mem_nil, false_implies, implies_true, and_true]
      exact ⟨Nat.prime_two, Nat.prime_two, Nat.prime_two, Nat.prime_five, Nat.prime_five,
        prime_2621, prime_24809, prime_13331831⟩)
    (by decide!) (by decide!)

/-- The number below is prime: 5 has order `N - 1` modulo it. -/
theorem prime_22149492674086928081353 :
    Nat.Prime 22149492674086928081353 :=
  lucas_cert 22149492674086928081353 5
    [2, 2, 2, 3, 5323, 173378833005251801]
    (by norm_num) (by norm_num)
    (by
      simp only [List.mem_cons, List.mem_singleton, forall_eq_or_imp, forall_eq,
        List.not_mem_nil, false_implies, implies_true, and_true]
      exact ⟨Nat.prime_two, Nat.prime_two, Nat.prime_two, Nat.prime_three, prime_5323,
        prime_173378833005251801⟩)
    (by decide!) (by decide!)

/-- The number below is prime: 6 has order `N - 1` modulo it. -/
theorem prime_132896956044521568488119 :
    Nat.Prime 132896956044521568488119 :=
  lucas_cert 132896956044521568488119 6
    [2, 3, 22149492674086928081353]
    (by norm_num) (by norm_num)
    (by
      simp only [List.mem_cons, List.mem_singleton, forall_eq_or_imp, forall_eq,
        List.not_mem_nil, false_implies, implies_true, and_true]
      exact ⟨Nat.prime_two, Nat.prime_three, prime_22149492674086928081353⟩)
    (by decide!) (by decide!)

/-- The number 271 is prime. -/
theorem prime_271 : Nat.Prime 271 := by norm_num

/-- The number below is prime: 3 has order `N - 1` modulo it. -/
theorem prime_1627 :
    Nat.Prime 1627 :=
  lucas_cert 1627 3
    [2, 3, 271]
    (by norm_num) (by norm_num)
    (by
      simp only [List.mem_cons, List.mem_singleton, forall_eq_or_imp, forall_eq,
        List.not_mem_nil, false_implies, implies_true, and_true]
      exact ⟨Nat.prime_two, Nat.prime_three, prime_271⟩)
    (by decide!) (by decide!)

/-- The number 83 is prime. -/
theorem prime_83 : Nat.Prime 83 := by norm_num

/-- The number below is prime: 3 has order `N - 1` modulo it. -/
theorem prime_2657 :
    Nat.Prime 2657 :=
  lucas_cert 2657 3
    [2, 2, 2, 2, 2, 83]
    (by norm_num) (by norm_num)
    (by
      simp only [List.mem_cons, List.mem_singleton, forall_eq_or_imp, forall_eq,
        List.not_mem_nil, false_implies, implies_true, and_true]
      exact ⟨Nat.prime_two, Nat.prime_two, Nat.prime_two, Nat.prime_two, Nat.prime_two, prime_83⟩)
    (by decide!) (by decide!)

/-- The number 67 is prime. -/
theorem prime_67 : Nat.Prime 67 := by norm_num

/-- The number below is prime: 3 has order `N - 1` modulo it. -/
theorem prime_4423 :
    Nat.Prime 4423 :=
  lucas_cert 4423 3
    [2, 3, 11, 67]
    (by norm_num) (by norm_num)
    (by
      simp only [List.mem_cons, List.mem_singleton, forall_eq_or_imp, forall_eq,
        List.not_mem_nil, false_implies, implies_true, and_true]
      exact ⟨Nat.prime_two, Nat.prime_three, prime_11, prime_67⟩)
    (by decide!) (by decide!)

/-- The number 103 is prime. -/
theorem prime_103 : Nat.Prime 103 := by norm_num

/-- The number below is prime: 3 has order `N - 1` modulo it. -/
theorem prime_41201 :
    Nat.Prime 41201 :=
  lucas_cert 41201 3
    [2, 2, 2, 2, 5, 5, 103]
    (by norm_num) (by norm_num)
    (by
      simp only [List.mem_cons, List.mem_singleton, forall_eq_or_imp, forall_eq,
        List.not_mem_nil, false_implies, implies_true, and_true]
      exact ⟨Nat.prime_two, Nat.prime_two, Nat.prime_two, Nat.prime_two, Nat.prime_five,
        Nat.prime_five, prime_103⟩)
    (by decide!) (by decide!)

/-- The number 101 is prime. -/
theorem prime_101 : Nat.Prime 101 := by norm_num

/-- The number 239 is prime. -/
theorem prime_239 : Nat.Prime 239 := by norm_num

/-- The number below is prime: 2 has order `N - 1` modulo it. -/
theorem prime_96557 :
    Nat.Prime 96557 :=
  lucas_cert 96557 2
    [2, 2, 101, 239]
    (by norm_num) (by norm_num)
    (by
      simp only [List.mem_cons, List.mem_singleton, forall_eq_or_imp, forall_eq,
        List.not_mem_nil, false_implies, implies_true, and_true]
      exact ⟨Nat.prime_two, Nat.prime_two, prime_101, prime_239⟩)
    (by decide!) (by decide!)

/-- The number 419 is prime. -/
theorem prime_419 : Nat.Prime 419 := by norm_num

/-- The number below is prime: 10 has order `N - 1` modulo it. -/
theorem prime_20113 :
    Nat.Prime 20113 :=
  lucas_cert 20113 10
    [2, 2, 2, 2, 3, 419]
    (by norm_num) (by norm_num)
    (by
      simp only [List.mem_cons, List.mem_singleton, forall_eq_or_imp, forall_eq,
        List.not_mem_nil, false_implies, implies_true, and_true]
      exact ⟨Nat.prime_two, Nat.prime_two, Nat.prime_two, Nat.prime_two, Nat.prime_three, prime_419⟩)
    (by decide!) (by decide!)

/-- The number below is prime: 10 has order `N - 1` modulo it. -/
theorem prime_1206781 :
    Nat.Prime 1206781 :=
  lucas_cert 1206781 10
    [2, 2, 3, 5, 20113]
    (by norm_num) (by norm_num)
    (by
      simp only [List.mem_cons, List.mem_singleton, forall_eq_or_imp, forall_eq,
        List.not_mem_nil, false_implies, implies_true, and_true]
      exact ⟨Nat.prime_two, Nat.prime_two, Nat.prime_three, Nat.prime_five, prime_20113⟩)
    (by decide!) (by decide!)

/-- The number below is prime: 3 has order `N - 1` modulo it. -/
theorem prime_7240687 :
    Nat.Prime 7240687 :=
  lucas_cert 7240687 3
    [2, 3, 1206781]
    (by norm_num) (by norm_num)
    (by
      simp only [List.mem_cons, List.mem_singleton, forall_eq_or_imp, forall_eq,
        List.not_mem_nil, false_implies, implies_true, and_true]
      exact ⟨Nat.prime_two, Nat.prime_three, prime_1206781⟩)
    (by decide!) (by decide!)

/-- The number 53 is prime. -/
theorem prime_53 : Nat.Prime 53 := by norm_num

/-- The number below is prime: 3 has order `N - 1` modulo it. -/
theorem prime_107590001 :
    Nat.Prime 107590001 :=
  lucas_cert 107590001 3
    [2, 2, 2, 2, 5, 5, 5, 5, 7, 29, 53]
    (by norm_num) (by norm_num)
    (by
      simp only [List.mem_cons, List.mem_singleton, forall_eq_or_imp, forall_eq,
        List.not_mem_nil, false_implies, implies_true, and_true]
      exact ⟨Nat.prime_two, Nat.prime_two, Nat.prime_two, Nat.prime_two, Nat.prime_five,
        Nat.prime_five, Nat.prime_five, Nat.prime_five, prime_7, prime_29, prime_53⟩)
    (by decide!) (by decide!)

/-- The number below is prime: 3 has order `N - 1` modulo it. -/
theorem prime_255515944373312847190720520512484175977 :
    Nat.Prime 255515944373312847190720520512484175977 :=
  lucas_cert 255515944373312847190720520512484175977 3
    [2, 2, 2, 7, 7, 11, 1627, 2657, 4423, 41201, 96557, 7240687, 107590001]
    (by norm_num) (by norm_num)
    (by
      simp only [List.mem_cons, List.mem_singleton, forall_eq_or_imp, forall_eq,
        List.not_mem_nil, false_implies, implies_true, and_true]
      exact ⟨Nat.prime_two, Nat.prime_two, Nat.prime_two, prime_7, prime_7, prime_11, prime_1627,
        prime_2657, prime_4423, prime_41201, prime_96557, prime_7240687, prime_107590001⟩)
    (by decide!) (by decide!)

/-- The number below is prime: 10 has order `N - 1` modulo it. -/
theorem prime_205115282021455665897114700593932402728804164701536103180137503955397371 :
    Nat.Prime 205115282021455665897114700593932402728804164701536103180137503955397371 :=
  lucas_cert 205115282021455665897114700593932402728804164701536103180137503955397371 10
    [2, 3, 5, 29, 29, 31, 7723, 132896956044521568488119,
      255515944373312847190720520512484175977]
    (by norm_num) (by norm_num)
    (by
      simp only [List.mem_cons, List.mem_singleton, forall_eq_or_imp, forall_eq,
        List.not_mem_nil, false_implies, implies_true, and_true]
      exact ⟨Nat.prime_two, Nat.prime_three, Nat.prime_five, prime_29, prime_29, prime_31,
        prime_7723, prime_132896956044521568488119,
        prime_255515944373312847190720520512484175977⟩)
    (by decide!) (by decide!)

/-- The number below is prime: 3 has order `N - 1` modulo it. -/
theorem prime_115792089237316195423570985008687907853269984665640564039457584007908834671663 :
    Nat.Prime 115792089237316195423570985008687907853269984665640564039457584007908834671663 :=
  lucas_cert 115792089237316195423570985008687907853269984665640564039457584007908834671663 3
    [2, 3, 7, 13441, 205115282021455665897114700593932402728804164701536103180137503955397371]
    (by norm_num) (by norm_num)
    (by
      simp only [List.mem_cons, List.mem_singleton, forall_eq_or_imp, forall_eq,
        List.not_mem_nil, false_implies, implies_true, and_true]
      exact ⟨Nat.prime_two, Nat.prime_three, prime_7, prime_13441,
        prime_205115282021455665897114700593932402728804164701536103180137503955397371⟩)
    (by decide!) (by decide!)

/-- The number 17 is prime. -/
theorem prime_17 : Nat.Prime 17 := by norm_num

/-- The number 23 is prime. -/
theorem prime_23 : Nat.Prime 23 := by norm_num

/-- The number 127 is prime. -/
theorem prime_127 : Nat.Prime 127 := by norm_num

/-- The number below is prime: 3 has order `N - 1` modulo it. -/
theorem prime_319279 :
    Nat.Prime 319279 :=
  lucas_cert 319279 3
    [2, 3, 127, 419]
    (by norm_num) (by norm_num)
    (by
      simp only [List.mem_cons, List.mem_singleton, forall_eq_or_imp, forall_eq,
        List.not_mem_nil, false_implies, implies_true, and_true]
      exact ⟨Nat.prime_two, Nat.prime_three, prime_127, prime_419⟩)
    (by decide!) (by decide!)

/-- The number below is prime: 6 has order `N - 1` modulo it. -/
theorem prime_1471 :
    Nat.Prime 1471 :=
  lucas_cert 1471 6
    [2, 3, 5, 7, 7]
    (by norm_num) (by norm_num)
    (by
      simp only [List.mem_cons, List.mem_singleton, forall_eq_or_imp, forall_eq,
        List.not_mem_nil, false_implies, implies_true, and_true]
      exact ⟨Nat.prime_two, Nat.prime_three, Nat.prime_five, prime_7, prime_7⟩)
    (by decide!) (by decide!)

/-- The number 269 is prime. -/
theorem prime_269 : Nat.Prime 269 := by norm_num

/-- The number below is prime: 3 has order `N - 1` modulo it. -/
theorem prime_2153 :
    Nat.Prime 2153 :=
  lucas_cert 2153 3
    [2, 2, 2, 269]
    (by norm_num) (by norm_num)
    (by
      simp only [List.mem_cons, List.mem_singleton, forall_eq_or_imp, forall_eq,
        List.not_mem_nil, false_implies, implies_true, and_true]
      exact ⟨Nat.prime_two, Nat.prime_two, Nat.prime_two, prime_269⟩)
    (by decide!) (by decide!)

/-- The number below is prime: 7 has order `N - 1` modulo it. -/
theorem prime_51673 :
    Nat.Prime 51673 :=
  lucas_cert 51673 7
    [2, 2, 2, 3, 2153]
    (by norm_num) (by norm_num)
    (by
      simp only [List.mem_cons, List.mem_singleton, forall_eq_or_imp, forall_eq,
        List.not_mem_nil, false_implies, implies_true, and_true]
      exact ⟨Nat.prime_two, Nat.prime_two, Nat.prime_two, Nat.prime_three, prime_2153⟩)
    (by decide!) (by decide!)

/-- The number below is prime: 2 has order `N - 1` modulo it. -/
theorem prime_456065899 :
    Nat.Prime 456065899 :=
  lucas_cert 456065899 2
    [2, 3, 1471, 51673]
    (by norm_num) (by norm_num)
    (by
      simp only [List.mem_cons, List.mem_singleton, forall_eq_or_imp, forall_eq,
        List.not_mem_nil, false_implies, implies_true, and_true]
      exact ⟨Nat.prime_two, Nat.prime_three, prime_1471, prime_51673⟩)
    (by decide!) (by decide!)

/-- The number below is prime: 3 has order `N - 1` modulo it. -/
theorem prime_9223372036854775783 :
    Nat.Prime 9223372036854775783 :=
  lucas_cert 9223372036854775783 3
    [2, 3, 3, 3, 3, 17, 23, 319279, 456065899]
    (by norm_num) (by norm_num)
    (by
      simp only [List.mem_cons, List.mem_singleton, forall_eq_or_imp, forall_eq,
        List.not_mem_nil, false_implies, implies_true, and_true]
      exact ⟨Nat.prime_two, Nat.prime_three, Nat.prime_three, Nat.prime_three, Nat.prime_three,
        prime_17, prime_23, prime_319279, prime_456065899⟩)
    (by decide!) (by decide!)

/-- The field prime is a prime number. -/
theorem FE_SIZE_prime : Prime FE_SIZE := by
  have h : FE_SIZE =
      ((115792089237316195423570985008687907853269984665640564039457584007908834671663 : Nat) :
        Int) := by decide
  rw [h]
  exact Nat.prime_iff_prime_int.mp
    prime_115792089237316195423570985008687907853269984665640564039457584007908834671663

/-- Every integer that is not zero modulo the field prime has an inverse there, so
`ModInverse` returns one. -/
theorem ModInverse_FE_SIZE (x : Int) (hx : x % FE_SIZE ≠ 0) :
    ∃ i, Big.ModInverse x FE_SIZE = some i ∧ 0 ≤ i ∧ i < FE_SIZE ∧ x * i % FE_SIZE = 1 := by
  have hp : (0 : Int) < FE_SIZE := by decide
  have hc : IsCoprime x FE_SIZE := by
    refine (Prime.coprime_iff_not_dvd FE_SIZE_prime).2 ?_ |>.symm
    intro hd
    exact hx (Int.emod_eq_zero_of_dvd hd)
  have hs := Big.ModInverse_isSome x FE_SIZE hp hc
  obtain ⟨i, hi⟩ := Option.isSome_iff_exists.mp hs
  obtain ⟨h0, h1, h2⟩ := Big.ModInverse_some x FE_SIZE i hp hi
  exact ⟨i, hi, h0, h1, by rw [h2]; decide⟩

/-! ## Big-endian bytes -/

/-- With enough fuel `bytesLE` is the list of base-256 digits. -/
theorem Big.bytesLE_eq_digits : ∀ (fuel n : Nat), n ≤ fuel → Big.bytesLE fuel n = Nat.digits 256 n := by
  intro fuel
  induction fuel with
  | zero =>
    intro n hn
    have : n = 0 := by omega
    subst this
    simp [Big.bytesLE]
  | succ k ih =>
    intro n hn
    by_cases hz : n = 0
    · subst hz
      simp [Big.bytesLE]
    · have hpos : 0 < n := Nat.pos_of_ne_zero hz
      have hlt : n / 256 < n := Nat.div_lt_self hpos (by decide)
      rw [Nat.digits_def' (by decide) hpos]
      simp only [Big.bytesLE, hz, if_false]
      rw [ih (n / 256) (by omega)]

/-- Reading a reversed digit list in big-endian order gives the number the digits spell. -/
theorem Big.beValue_reverse (l : List Nat) : Big.beValue l.reverse = Nat.ofDigits 256 l := by
  unfold Big.beValue
  rw [List.foldl_reverse]
  induction l with
  | nil => simp
  | cons d t ih =>
    rw [List.foldr_cons, ih, Nat.ofDigits_cons]
    ring

/-- Leading zero bytes do not change the big-endian value. -/
theorem Big.beValue_zeros_append (k : Nat) (l : List Nat) :
    Big.beValue (List.replicate k 0 ++ l) = Big.beValue l := by
  unfold Big.beValue
  rw [List.foldl_append]
  congr 1
  induction k with
  | zero => rfl
  | succ k ih => simpa [List.replicate_succ] using ih

/-- A number below `256 ^ 32` has at most 32 base-256 digits. -/
theorem Big.digits_length_le (n : Nat) (h : n < 256 ^ 32) : (Nat.digits 256 n).length ≤ 32 := by
  by_cases hz : n = 0
  · subst hz
    simp
  · by_contra hc
    have h1 : 256 ^ 33 ≤ 256 ^ (Nat.digits 256 n).length :=
      Nat.pow_le_pow_right (by decide) (by omega)
    have h3 := Nat.base_pow_length_digits_le 256 n (by decide) hz
    have h4 : (256 : Nat) ^ 33 = 256 * 256 ^ 32 := by norm_num
    omega

/-! ## Closed forms of the field-element functions -/

/-- The function `NewFE` never takes either of its two branches: it returns the two reduced
integers, in the allocations `h` and `h + 1`, and no error. -/
theorem NewFE_run (n d : BigInt) (h : Nat) :
    NewFE n d h = some (.ok ⟨⟨h, n.val % FE_SIZE⟩, ⟨h + 1, d.val % FE_SIZE⟩⟩, h + 4) := by
  have h1 : ¬ (h + 1 = h + 2) := by omega
  have h2 : ¬ (h = h + 3) := by omega
  simp [NewFE, Go.bind_run, Go.pure_run, new_run, Big.Mod, Big.SetInt64, ptrEq_mk, h1, h2]

theorem Add_run (a b : FE) (h : Nat) :
    Add a b h = some (.ok ⟨⟨h + 4, (a.Num.val * b.Den.val + b.Den.val * a.Num.val) % FE_SIZE⟩,
      ⟨h + 5, (a.Den.val * b.Den.val) % FE_SIZE⟩⟩, h + 8) := by
  simp [Add, Go.bind_run, new_run, NewFE_run, Big.Add, Big.Mul]

theorem Sub_run (a b : FE) (h : Nat) :
    Sub a b h = some (.ok ⟨⟨h + 4, (a.Num.val * b.Den.val - b.Den.val * a.Num.val) % FE_SIZE⟩,
      ⟨h + 5, (a.Den.val * b.Den.val) % FE_SIZE⟩⟩, h + 8) := by
  simp [Sub, Go.bind_run, new_run, NewFE_run, Big.Sub, Big.Mul]

theorem Mul_run (a b : FE) (h : Nat) :
    Mul a b h = some (.ok ⟨⟨h + 2, (a.Num.val * b.Num.val) % FE_SIZE⟩,
      ⟨h + 3, (a.Den.val * b.Den.val) % FE_SIZE⟩⟩, h + 6) := by
  simp [Mul, Go.bind_run, new_run, NewFE_run, Big.Mul]

theorem ScalarMul_run (a : FE) (b : BigInt) (h : Nat) :
    ScalarMul a b h = some (.ok ⟨⟨h + 1, (a.Num.val * b.val) % FE_SIZE⟩,
      ⟨h + 2, a.Den.val % FE_SIZE⟩⟩, h + 5) := by
  simp [ScalarMul, Go.bind_run, new_run, NewFE_run, Big.Mul]

/-- The function `Eq` compares two allocations made inside the call, so it answers false
whatever the two field elements are. -/
theorem Eq_run (a b : FE) (h : Nat) : Secp256k1.Eq a b h = some (false, h + 5) := by
  have h1 : ¬ (h = h + 4) := by omega
  simp [Secp256k1.Eq, Go.bind_run, Go.pure_run, new_run, Big.NewInt_run, Big.Mod, ptrEq_mk, h1]

/-- The function `Pow` with an exponent that is not negative. -/
theorem Pow_run (a : FE) (b : BigInt) (h : Nat) (hb : 0 ≤ b.val) :
    Pow a b h = some (.ok ⟨⟨h + 2, a.Num.val ^ b.val.toNat % FE_SIZE % FE_SIZE⟩,
      ⟨h + 3, a.Den.val ^ b.val.toNat % FE_SIZE % FE_SIZE⟩⟩, h + 6) := by
  simp [Pow, Go.bind_run, new_run, NewFE_run, Big.Exp, Big.expVal, hb, deref_some]

/-- The function `ToBigInt` on a receiver whose denominator was allocated before the call,
is not negative and has the inverse `i` modulo the field prime: the branch is taken, the
result is the product `a.Num * i`, not reduced, and the receiver is rewritten to that product
over one. -/
theorem ToBigInt_run (a : FE) (h : Nat) (i : Int) (ha : a.Den.addr < h) (_hd : 0 ≤ a.Den.val)
    (hi : Big.ModInverse a.Den.val FE_SIZE = some i) :
    ToBigInt a h = some ((some ⟨h + 3, a.Num.val * (i ^ 1 % FE_SIZE)⟩,
      ⟨⟨h + 3, a.Num.val * (i ^ 1 % FE_SIZE)⟩, ⟨h + 4, 1⟩⟩), h + 5) := by
  have h1 : ¬ (a.Den.addr = h) := by omega
  simp [ToBigInt, Go.bind_run, Go.pure_run, new_run, Big.NewInt_run, ptrEq, h1, Big.Exp,
    Big.expVal, hi, deref_some, Big.Mul]

/-- The function `ToBigInt` panics when the denominator has no inverse modulo the field
prime: `Exp` returns nil and `Mul` dereferences it. -/
theorem ToBigInt_panic (a : FE) (h : Nat) (ha : a.Den.addr < h) (_hd : 0 ≤ a.Den.val)
    (hi : Big.ModInverse a.Den.val FE_SIZE = none) : ToBigInt a h = none := by
  have h1 : ¬ (a.Den.addr = h) := by omega
  simp [ToBigInt, Go.bind_run, new_run, Big.NewInt_run, ptrEq, h1, Big.Exp,
    Big.expVal, hi, deref_none]

/-! ## Closed forms of the group-element functions -/

/-- The function `NewGE` returns `ErrGeCreationFailed` on every pair of field elements: its
only successful return is guarded by `Eq`. -/
theorem NewGE_run (x y : FE) (h : Nat) :
    NewGE x y h = some (.error .ErrGeCreationFailed, h + 33) := by
  simp [NewGE, Go.bind_run, Go.pure_run, Big.NewInt_run, Pow_run, NewFE_run, Add_run, Eq_run]

/-- The function `GE.Add` on two finite points.  `Eq` answers false, so the chord branch
runs; when the two denominators handed to `ToBigInt` have inverses the call reaches `NewGE`
and returns its error. -/
theorem GE_Add_finite_run (ax ay bx by1 : FE) (h : Nat) (i j : Int)
    (hi : Big.ModInverse (ay.Den.val * by1.Den.val % FE_SIZE) FE_SIZE = some i)
    (hj : Big.ModInverse (ax.Den.val * bx.Den.val % FE_SIZE) FE_SIZE = some j) :
    GE.Add ⟨some ax, some ay, false⟩ ⟨some bx, some by1, false⟩ h
      = some (.error .ErrGeCreationFailed, h + 113) := by
  have t1 := ToBigInt_run
    ⟨⟨h + 9, (ay.Num.val * by1.Den.val - by1.Den.val * ay.Num.val) % FE_SIZE⟩,
      ⟨h + 10, ay.Den.val * by1.Den.val % FE_SIZE⟩⟩ (h + 21) i (by simp)
    (Int.emod_nonneg _ (by decide)) hi
  have t2 := ToBigInt_run
    ⟨⟨h + 17, (ax.Num.val * bx.Den.val - bx.Den.val * ax.Num.val) % FE_SIZE⟩,
      ⟨h + 18, ax.Den.val * bx.Den.val % FE_SIZE⟩⟩ (h + 26) j (by simp)
    (Int.emod_nonneg _ (by decide)) hj
  simp [GE.Add, Go.bind_run, Go.pure_run, Big.NewInt_run, deref_some, Eq_run, Sub_run,
    t1, t2, NewFE_run, Pow_run, Add_run, Mul_run, NewGE_run]

/-- The function `GE.Add` on two finite points with canonical coordinates (all four
denominators one): the denominators handed to `ToBigInt` are one, which is its own inverse. -/
theorem GE_Add_canonical_run (i1 i2 i3 i4 j1 j2 j3 j4 : Nat) (x1 y1 x2 y2 : Int) (h : Nat) :
    GE.Add ⟨some ⟨⟨i1, x1⟩, ⟨i2, 1⟩⟩, some ⟨⟨i3, y1⟩, ⟨i4, 1⟩⟩, false⟩
        ⟨some ⟨⟨j1, x2⟩, ⟨j2, 1⟩⟩, some ⟨⟨j3, y2⟩, ⟨j4, 1⟩⟩, false⟩ h
      = some (.error .ErrGeCreationFailed, h + 113) :=
  have inv1 : Big.ModInverse (1 * 1 % FE_SIZE) FE_SIZE = some 1 := by decide
  GE_Add_finite_run _ _ _ _ h 1 1 inv1 inv1

/-- Every field element that `NewFE` returns has both fields in `[0, p)`. -/
theorem NewFE_range (n d : BigInt) (h : Nat) :
    ∃ fe, (NewFE n d).result h = some (.ok fe) ∧
      0 ≤ fe.Num.val ∧ fe.Num.val < FE_SIZE ∧ 0 ≤ fe.Den.val ∧ fe.Den.val < FE_SIZE := by
  have hp : (0 : Int) < FE_SIZE := by decide
  refine ⟨⟨⟨h, n.val % FE_SIZE⟩, ⟨h + 1, d.val % FE_SIZE⟩⟩, by simp [Go.result, NewFE_run],
    ?_, ?_, ?_, ?_⟩
  · exact Int.emod_nonneg _ (ne_of_gt hp)
  · exact Int.emod_lt_of_pos _ hp
  · exact Int.emod_nonneg _ (ne_of_gt hp)
  · exact Int.emod_lt_of_pos _ hp

/-! ## Closed forms of the remaining field-element functions -/

/-- The function `Inv` on an element whose numerator and denominator have the inverses `i`
and `j` modulo the field prime: it returns `i/j`, reduced. -/
theorem Inv_run (a : FE) (h : Nat) (i j : Int)
    (hi : Big.ModInverse a.Num.val FE_SIZE = some i)
    (hj : Big.ModInverse a.Den.val FE_SIZE = some j) :
    Inv a h = some (.ok ⟨⟨h + 3, i ^ 1 % FE_SIZE % FE_SIZE⟩,
      ⟨h + 4, j ^ 1 % FE_SIZE % FE_SIZE⟩⟩, h + 7) := by
  simp [Inv, Pow, Go.bind_run, new_run, NewFE_run, Big.Exp, Big.expVal, Big.SetInt64, hi, hj,
    deref_some]

/-- The function `Sqrt` on a receiver whose denominator was allocated before the call, is not
negative and has the inverse `i`: the pointers `ss` and `v` are different allocations, so
the call returns `ErrSqrtFailed`. -/
theorem Sqrt_run (a : FE) (h : Nat) (i : Int) (ha : a.Den.addr < h) (hd : 0 ≤ a.Den.val)
    (hi : Big.ModInverse a.Den.val FE_SIZE = some i) :
    Sqrt a h = some ((.error .ErrSqrtFailed,
      ⟨⟨h + 3, a.Num.val * (i ^ 1 % FE_SIZE)⟩, ⟨h + 4, 1⟩⟩), h + 12) := by
  have e : (0 : Int) ≤ (FE_SIZE + 1) / 4 := by decide
  have h1 : ¬ (h + 10 = h + 3) := by omega
  simp [Sqrt, Go.bind_run, Go.pure_run, new_run, Big.NewInt_run, ToBigInt_run a h i ha hd hi,
    deref_some, Big.Exp, Big.expVal, Big.Div, Big.Add, FE_SIZE_ptr, e, ptrEq_mk, h1]

/-- The function `HasSqrt` under the same conditions answers false. -/
theorem HasSqrt_run (a : FE) (h : Nat) (i : Int) (ha : a.Den.addr < h) (hd : 0 ≤ a.Den.val)
    (hi : Big.ModInverse a.Den.val FE_SIZE = some i) :
    HasSqrt a h = some ((false,
      ⟨⟨h + 3, a.Num.val * (i ^ 1 % FE_SIZE)⟩, ⟨h + 4, 1⟩⟩), h + 12) := by
  simp [HasSqrt, Go.bind_run, Go.pure_run, Sqrt_run a h i ha hd hi]

/-- The function `FromBytes` on a byte slice whose big-endian value is below the field
prime. -/
theorem FromBytes_run_lt (b : List Nat) (h : Nat) (hb : (Big.beValue b : Int) < FE_SIZE) :
    FromBytes b h = some (.ok ⟨⟨h + 2, Big.beValue b⟩, ⟨h + 3, 1⟩⟩, h + 6) := by
  have e1 : (Big.beValue b : Int) % FE_SIZE = Big.beValue b :=
    Int.emod_eq_of_lt (Int.ofNat_nonneg _) hb
  have e2 : (1 : Int) % FE_SIZE = 1 := by decide
  simp [FromBytes, Go.bind_run, new_run, Big.NewInt_run, NewFE_run, Big.SetBytes, hb, e1, e2]

/-- The function `FromBytes` on a byte slice whose big-endian value is not below the field
prime. -/
theorem FromBytes_run_ge (b : List Nat) (h : Nat) (hb : FE_SIZE ≤ (Big.beValue b : Int)) :
    FromBytes b h = some (.error .ErrNumOutOfFeSize, h + 1) := by
  have e : ¬ ((Big.beValue b : Int) < FE_SIZE) := not_lt.mpr hb
  simp [FromBytes, Go.bind_run, Go.pure_run, new_run, Big.SetBytes, e]

/-- The function `ToBytes` on a canonical element with numerator `n < 256 ^ 32` whose
denominator was allocated before the call: zero bytes followed by the base-256 digits of
`n`, most significant first. -/
theorem ToBytes_run (i j n h : Nat) (hj : j < h) (hn : n < 256 ^ 32) :
    ToBytes ⟨⟨i, (n : Int)⟩, ⟨j, 1⟩⟩ h =
      some ((List.replicate (32 - (Nat.digits 256 n).length) 0 ++ (Nat.digits 256 n).reverse,
        ⟨⟨h + 3, (n : Int)⟩, ⟨h + 4, 1⟩⟩), h + 5) := by
  have inv1 : Big.ModInverse (1 : Int) FE_SIZE = some 1 := by decide
  have t := ToBigInt_run ⟨⟨i, (n : Int)⟩, ⟨j, 1⟩⟩ h 1 hj Int.one_nonneg inv1
  have e1 : (n : Int) * ((1 : Int) ^ 1 % FE_SIZE) = n := by
    have : (1 : Int) ^ 1 % FE_SIZE = 1 := by decide
    rw [this, mul_one]
  rw [e1] at t
  have hl := Big.digits_length_le n hn
  have e2 : ¬ (32 < (Nat.digits 256 n).length) := by omega
  simp [ToBytes, Go.bind_run, Go.pure_run, t, deref_some, Big.Bytes,
    Big.bytesLE_eq_digits n n (le_refl n), e2]

/-- Reduction of the left factor before a product does not change the reduced product. -/
theorem emod_mul_emod_left (a b n : Int) : a % n * b % n = a * b % n := by
  rw [Int.mul_emod (a % n), Int.emod_emod, ← Int.mul_emod]

/-- Reduction of the right factor before a product does not change the reduced product. -/
theorem mul_emod_emod_right (a b n : Int) : a * (b % n) % n = a * b % n := by
  rw [Int.mul_emod a (b % n), Int.emod_emod, ← Int.mul_emod]

/-! ## The claims -/

/-- Claim C1, on the code: the generator has denominators one and satisfies the curve
equation `y^2 ≡ x^3 + 7 (mod p)`, yet `NewGE` returns `ErrGeCreationFailed` for it, as it
does for every pair of field elements at every state of the allocator. -/
theorem C1_NewGE_rejects_generator :
    Gx.Den.val = 1 ∧ Gy.Den.val = 1 ∧ onCurve Gx.Num.val Gy.Num.val ∧
    (NewGE Gx Gy).result 4 = some (.error .ErrGeCreationFailed) ∧
    ∀ (x y : FE) (h : Nat), (NewGE x y).result h = some (.error .ErrGeCreationFailed) := by
  refine ⟨rfl, rfl, by decide, by decide, ?_⟩
  intro x y h
  simp [Go.result, NewGE_run]

/-- Claim C2: the point at infinity is a two-sided identity of `GE.Add`.  For every group
element `P`, finite or the point at infinity, `Add(P, NewInfGE())` and `Add(NewInfGE(), P)`
return `P`, with the same `X`, `Y` and `Inf`, and no error; nothing is allocated. -/
theorem C2_Add_infinity_identity (P : GE) (h : Nat) (hP : P.Inf = false ∨ P = NewInfGE) :
    GE.Add P NewInfGE h = some (.ok P, h) ∧ GE.Add NewInfGE P h = some (.ok P, h) := by
  rcases hP with hP | hP
  · simp [GE.Add, NewInfGE, hP, Go.pure_run]
  · subst hP
    simp [GE.Add, NewInfGE, Go.pure_run]

/-- Witness of claim C2 at the generator: `Add(G, Infinity)` and `Add(Infinity, G)` return
`G` with unchanged coordinates. -/
theorem C2_Add_infinity_identity_witness :
    (G.Inf = false ∨ G = NewInfGE) ∧
    GE.Add G NewInfGE 4 = some (.ok G, 4) ∧ GE.Add NewInfGE G 4 = some (.ok G, 4) :=
  ⟨Or.inl rfl, C2_Add_infinity_identity G 4 (Or.inl rfl)⟩

/-- Claim C3, on the code: `G` is a finite point on the curve with canonical coordinates and
`negG` is `(G.x, p - G.y)`, yet `Add(G, negG)` returns the error `ErrGeCreationFailed` and
no point at infinity; the same holds for every canonical `(x, y)` and `(x, p - y)`. -/
theorem C3_Add_negation_fails :
    onCurve Gx.Num.val Gy.Num.val ∧
    (GE.Add G negG).result 8 = some (.error .ErrGeCreationFailed) ∧
    ∀ (i1 i2 i3 i4 j1 j2 j3 j4 : Nat) (x y : Int) (h : Nat),
      (GE.Add ⟨some ⟨⟨i1, x⟩, ⟨i2, 1⟩⟩, some ⟨⟨i3, y⟩, ⟨i4, 1⟩⟩, false⟩
        ⟨some ⟨⟨j1, x⟩, ⟨j2, 1⟩⟩, some ⟨⟨j3, FE_SIZE - y⟩, ⟨j4, 1⟩⟩, false⟩).result h
        = some (.error .ErrGeCreationFailed) := by
  refine ⟨by decide, by decide, ?_⟩
  intros
  simp [Go.result, GE_Add_canonical_run]

/-- Claim C4, on the code: `G` is a finite point on the curve with `y` not zero modulo `p`,
yet `Add(G, G)` returns the error `ErrGeCreationFailed` instead of the point `2·G`; the same
holds for the doubling of every point with canonical coordinates. -/
theorem C4_Add_doubling_fails :
    onCurve Gx.Num.val Gy.Num.val ∧ Gy.Num.val % FE_SIZE ≠ 0 ∧
    (GE.Add G G).result 4 = some (.error .ErrGeCreationFailed) ∧
    ∀ (i1 i2 i3 i4 : Nat) (x y : Int) (h : Nat),
      (GE.Add ⟨some ⟨⟨i1, x⟩, ⟨i2, 1⟩⟩, some ⟨⟨i3, y⟩, ⟨i4, 1⟩⟩, false⟩
        ⟨some ⟨⟨i1, x⟩, ⟨i2, 1⟩⟩, some ⟨⟨i3, y⟩, ⟨i4, 1⟩⟩, false⟩).result h
        = some (.error .ErrGeCreationFailed) := by
  refine ⟨by decide, by decide, by decide, ?_⟩
  intros
  simp [Go.result, GE_Add_canonical_run]

/-- Claim C5, on the code: `G` and `G2` are finite points on the curve whose x-coordinates
are different field values, yet `Add(G, G2)` returns the error `ErrGeCreationFailed` instead
of the chord sum; the same holds for every two points with canonical coordinates. -/
theorem C5_Add_chord_fails :
    onCurve Gx.Num.val Gy.Num.val ∧
    onCurve 0xC6047F9441ED7D6D3045406E95C07CD85C778E4B8CEF3CA7ABAC09B95C709EE5
      0x1AE168FEA63DC339A3C58419466CEAEEF7F632653266D0E1236431A950CFE52A ∧
    Gx.Num.val % FE_SIZE ≠
      0xC6047F9441ED7D6D3045406E95C07CD85C778E4B8CEF3CA7ABAC09B95C709EE5 % FE_SIZE ∧
    (GE.Add G G2).result 8 = some (.error .ErrGeCreationFailed) ∧
    ∀ (i1 i2 i3 i4 j1 j2 j3 j4 : Nat) (x1 y1 x2 y2 : Int) (h : Nat),
      (GE.Add ⟨some ⟨⟨i1, x1⟩, ⟨i2, 1⟩⟩, some ⟨⟨i3, y1⟩, ⟨i4, 1⟩⟩, false⟩
        ⟨some ⟨⟨j1, x2⟩, ⟨j2, 1⟩⟩, some ⟨⟨j3, y2⟩, ⟨j4, 1⟩⟩, false⟩).result h
        = some (.error .ErrGeCreationFailed) := by
  refine ⟨by decide, by decide, by decide, by decide, ?_⟩
  intros
  simp [Go.result, GE_Add_canonical_run]

/-- Claim C6, on the code: the fractions `7/1` and `14/2` have equal cross products modulo
`p`, yet `Eq` answers false for them, as it does for every two field elements at every state
of the allocator. -/
theorem C6_Eq_false_on_equal_fractions :
    (7 * 2 : Int) % FE_SIZE = 14 * 1 % FE_SIZE ∧
    (Secp256k1.Eq ⟨⟨0, 7⟩, ⟨1, 1⟩⟩ ⟨⟨2, 14⟩, ⟨3, 2⟩⟩).result 4 = some false ∧
    ∀ (a b : FE) (h : Nat), (Secp256k1.Eq a b).result h = some false := by
  refine ⟨by decide, by decide, ?_⟩
  intro a b h
  simp [Go.result, Eq_run]

/-- Claim C7, on the code: `NewFE(1, 0)` has a denominator that is zero modulo `p`, yet it
returns the element `1/0` and no error; for all arguments `NewFE` returns the element made
of the two reduced integers, so `ErrDenIsZero` is never returned. -/
theorem C7_NewFE_accepts_zero_denominator :
    (0 : Int) % FE_SIZE = 0 ∧
    (NewFE ⟨0, 1⟩ ⟨1, 0⟩).result 2 = some (.ok ⟨⟨2, 1⟩, ⟨3, 0⟩⟩) ∧
    ∀ (n d : BigInt) (h : Nat), (NewFE n d).result h =
      some (.ok ⟨⟨h, n.val % FE_SIZE⟩, ⟨h + 1, d.val % FE_SIZE⟩⟩) := by
  refine ⟨by decide, by decide, ?_⟩
  intro n d h
  simp [Go.result, NewFE_run]

/-- Claim C8, on the code: every element returned by `NewFE` has numerator and denominator
in `[0, p)`, but the rest of the invariant fails: `NewFE(0, 5)` returns `0/5` (numerator
zero, denominator not one), `NewFE(1, 0)` returns `1/0` (denominator zero), and `Add`,
`Sub`, `Mul` and `ScalarMul` applied to elements that satisfy the invariant return `0/2`,
`0/6`, `0/2` and `0/2`. -/
theorem C8_invariant_not_established :
    (∀ (n d : BigInt) (h : Nat), ∃ fe, (NewFE n d).result h = some (.ok fe) ∧
      0 ≤ fe.Num.val ∧ fe.Num.val < FE_SIZE ∧ 0 ≤ fe.Den.val ∧ fe.Den.val < FE_SIZE) ∧
    ((NewFE ⟨0, 0⟩ ⟨1, 5⟩).result 2 = some (.ok ⟨⟨2, 0⟩, ⟨3, 5⟩⟩) ∧
      ¬ repInv ⟨⟨2, 0⟩, ⟨3, 5⟩⟩) ∧
    ((NewFE ⟨0, 1⟩ ⟨1, 0⟩).result 2 = some (.ok ⟨⟨2, 1⟩, ⟨3, 0⟩⟩) ∧
      ¬ repInv ⟨⟨2, 1⟩, ⟨3, 0⟩⟩) ∧
    (repInv ⟨⟨0, 0⟩, ⟨1, 1⟩⟩ ∧ repInv ⟨⟨2, 1⟩, ⟨3, 2⟩⟩ ∧
      (Add ⟨⟨0, 0⟩, ⟨1, 1⟩⟩ ⟨⟨2, 1⟩, ⟨3, 2⟩⟩).result 4 = some (.ok ⟨⟨8, 0⟩, ⟨9, 2⟩⟩) ∧
      (Mul ⟨⟨0, 0⟩, ⟨1, 1⟩⟩ ⟨⟨2, 1⟩, ⟨3, 2⟩⟩).result 4 = some (.ok ⟨⟨6, 0⟩, ⟨7, 2⟩⟩) ∧
      ¬ repInv ⟨⟨8, 0⟩, ⟨9, 2⟩⟩ ∧ ¬ repInv ⟨⟨6, 0⟩, ⟨7, 2⟩⟩) ∧
    (repInv ⟨⟨0, 1⟩, ⟨1, 2⟩⟩ ∧ repInv ⟨⟨2, 1⟩, ⟨3, 3⟩⟩ ∧
      (Sub ⟨⟨0, 1⟩, ⟨1, 2⟩⟩ ⟨⟨2, 1⟩, ⟨3, 3⟩⟩).result 4 = some (.ok ⟨⟨8, 0⟩, ⟨9, 6⟩⟩) ∧
      (ScalarMul ⟨⟨0, 1⟩, ⟨1, 2⟩⟩ ⟨2, 0⟩).result 3 = some (.ok ⟨⟨4, 0⟩, ⟨5, 2⟩⟩) ∧
      ¬ repInv ⟨⟨8, 0⟩, ⟨9, 6⟩⟩ ∧ ¬ repInv ⟨⟨4, 0⟩, ⟨5, 2⟩⟩) := by
  refine ⟨NewFE_range, by decide, by decide, by decide, by decide⟩

/-- Claim C9, on the code: `Add(1/1, 2/1)` returns `2/1`, which represents 2 and not the
sum 3, and `Add(2/1, 1/1)` returns `4/1`; for all `a`, `b` the returned numerator is
`2·a.Num·b.Den mod p`, in which `b.Num` does not occur, over the denominator
`a.Den·b.Den mod p`. -/
theorem C9_Add_numerator_ignores_second_numerator :
    (Add ⟨⟨0, 1⟩, ⟨1, 1⟩⟩ ⟨⟨2, 2⟩, ⟨3, 1⟩⟩).result 4 = some (.ok ⟨⟨8, 2⟩, ⟨9, 1⟩⟩) ∧
    (1 * 1 + 2 * 1 : Int) % FE_SIZE = 3 ∧ (2 : Int) % FE_SIZE ≠ 3 % FE_SIZE ∧
    (Add ⟨⟨2, 2⟩, ⟨3, 1⟩⟩ ⟨⟨0, 1⟩, ⟨1, 1⟩⟩).result 4 = some (.ok ⟨⟨8, 4⟩, ⟨9, 1⟩⟩) ∧
    (2 * 1 : Int) % FE_SIZE ≠ 4 * 1 % FE_SIZE ∧
    ∀ (a b : FE) (h : Nat), (Add a b).result h =
      some (.ok ⟨⟨h + 4, 2 * (a.Num.val * b.Den.val) % FE_SIZE⟩,
        ⟨h + 5, a.Den.val * b.Den.val % FE_SIZE⟩⟩) := by
  refine ⟨by decide, by decide, by decide, by decide, by decide, ?_⟩
  intro a b h
  have e : a.Num.val * b.Den.val + b.Den.val * a.Num.val = 2 * (a.Num.val * b.Den.val) := by
    ring
  simp [Go.result, Add_run, e]

/-- Claim C10, on the code: `Sub(5/1, 2/1)` returns `0/1`, which represents 0 and not the
difference 3; for all `a`, `b` the returned numerator is 0, over the denominator
`a.Den·b.Den mod p`. -/
theorem C10_Sub_returns_zero :
    (Sub ⟨⟨0, 5⟩, ⟨1, 1⟩⟩ ⟨⟨2, 2⟩, ⟨3, 1⟩⟩).result 4 = some (.ok ⟨⟨8, 0⟩, ⟨9, 1⟩⟩) ∧
    (0 * (1 * 1) : Int) % FE_SIZE ≠ (5 * 1 - 2 * 1) * 1 % FE_SIZE ∧
    ∀ (a b : FE) (h : Nat), (Sub a b).result h =
      some (.ok ⟨⟨h + 4, 0⟩, ⟨h + 5, a.Den.val * b.Den.val % FE_SIZE⟩⟩) := by
  refine ⟨by decide, by decide, ?_⟩
  intro a b h
  have e : a.Num.val * b.Den.val - b.Den.val * a.Num.val = 0 := by ring
  simp [Go.result, Sub_run, e]

/-- Claim C11: `Mul` is commutative and associative on the stored integers.  For all field
elements `a`, `b`, `c` and all states of the allocator, `Mul(a, b)` and `Mul(b, a)` return
elements with the same `Num` and the same `Den`, and so do `Mul(Mul(a, b), c)` and
`Mul(a, Mul(b, c))`; each is the product of the numerators (of the denominators) reduced
modulo `p`, and no call returns an error. -/
theorem C11_Mul_commutative_associative (a b c : FE) (h1 h2 h3 h4 h5 : Nat) :
    ∃ ab ba bc abc abc1 : FE,
      (Mul a b).result h1 = some (.ok ab) ∧ (Mul b a).result h2 = some (.ok ba) ∧
      ab.Num.val = ba.Num.val ∧ ab.Den.val = ba.Den.val ∧
      ab.Num.val = a.Num.val * b.Num.val % FE_SIZE ∧
      ab.Den.val = a.Den.val * b.Den.val % FE_SIZE ∧
      (Mul b c).result h3 = some (.ok bc) ∧
      (Mul ab c).result h4 = some (.ok abc) ∧ (Mul a bc).result h5 = some (.ok abc1) ∧
      abc.Num.val = abc1.Num.val ∧ abc.Den.val = abc1.Den.val ∧
      abc.Num.val = a.Num.val * b.Num.val * c.Num.val % FE_SIZE ∧
      abc.Den.val = a.Den.val * b.Den.val * c.Den.val % FE_SIZE := by
  refine ⟨⟨⟨h1 + 2, a.Num.val * b.Num.val % FE_SIZE⟩, ⟨h1 + 3, a.Den.val * b.Den.val % FE_SIZE⟩⟩,
    ⟨⟨h2 + 2, b.Num.val * a.Num.val % FE_SIZE⟩, ⟨h2 + 3, b.Den.val * a.Den.val % FE_SIZE⟩⟩,
    ⟨⟨h3 + 2, b.Num.val * c.Num.val % FE_SIZE⟩, ⟨h3 + 3, b.Den.val * c.Den.val % FE_SIZE⟩⟩,
    ⟨⟨h4 + 2, a.Num.val * b.Num.val % FE_SIZE * c.Num.val % FE_SIZE⟩,
      ⟨h4 + 3, a.Den.val * b.Den.val % FE_SIZE * c.Den.val % FE_SIZE⟩⟩,
    ⟨⟨h5 + 2, a.Num.val * (b.Num.val * c.Num.val % FE_SIZE) % FE_SIZE⟩,
      ⟨h5 + 3, a.Den.val * (b.Den.val * c.Den.val % FE_SIZE) % FE_SIZE⟩⟩,
    by simp [Go.result, Mul_run], by simp [Go.result, Mul_run], ?_, ?_, rfl, rfl,
    by simp [Go.result, Mul_run], by simp [Go.result, Mul_run], by simp [Go.result, Mul_run],
    ?_, ?_, ?_, ?_⟩
  · show a.Num.val * b.Num.val % FE_SIZE = b.Num.val * a.Num.val % FE_SIZE
    rw [mul_comm]
  · show a.Den.val * b.Den.val % FE_SIZE = b.Den.val * a.Den.val % FE_SIZE
    rw [mul_comm]
  · show a.Num.val * b.Num.val % FE_SIZE * c.Num.val % FE_SIZE
      = a.Num.val * (b.Num.val * c.Num.val % FE_SIZE) % FE_SIZE
    rw [emod_mul_emod_left, mul_emod_emod_right, mul_assoc]
  · show a.Den.val * b.Den.val % FE_SIZE * c.Den.val % FE_SIZE
      = a.Den.val * (b.Den.val * c.Den.val % FE_SIZE) % FE_SIZE
    rw [emod_mul_emod_left, mul_emod_emod_right, mul_assoc]
  · show a.Num.val * b.Num.val % FE_SIZE * c.Num.val % FE_SIZE
      = a.Num.val * b.Num.val * c.Num.val % FE_SIZE
    rw [emod_mul_emod_left]
  · show a.Den.val * b.Den.val % FE_SIZE * c.Den.val % FE_SIZE
      = a.Den.val * b.Den.val * c.Den.val % FE_SIZE
    rw [emod_mul_emod_left]

/-- Claim C12: for every field element `a` with numerator and denominator not negative and
not zero modulo `p`, `Inv(a)` returns an element and no error, and `Mul(a, Inv(a))` returns
the canonical one, `Num = 1` and `Den = 1`, and no error. -/
theorem C12_Mul_Inv_is_one (a : FE) (h : Nat) (_hn0 : 0 ≤ a.Num.val) (_hd0 : 0 ≤ a.Den.val)
    (hn : a.Num.val % FE_SIZE ≠ 0) (hd : a.Den.val % FE_SIZE ≠ 0) :
    ∃ inv : FE, (Inv a).result h = some (.ok inv) ∧
      ∀ h1 : Nat, ∃ r : FE, (Mul a inv).result h1 = some (.ok r) ∧
        r.Num.val = 1 ∧ r.Den.val = 1 := by
  obtain ⟨i, hi, -, -, hi1⟩ := ModInverse_FE_SIZE a.Num.val hn
  obtain ⟨j, hj, -, -, hj1⟩ := ModInverse_FE_SIZE a.Den.val hd
  refine ⟨⟨⟨h + 3, i ^ 1 % FE_SIZE % FE_SIZE⟩, ⟨h + 4, j ^ 1 % FE_SIZE % FE_SIZE⟩⟩,
    by simp [Go.result, Inv_run a h i j hi hj], ?_⟩
  intro h1
  refine ⟨⟨⟨h1 + 2, a.Num.val * (i ^ 1 % FE_SIZE % FE_SIZE) % FE_SIZE⟩,
    ⟨h1 + 3, a.Den.val * (j ^ 1 % FE_SIZE % FE_SIZE) % FE_SIZE⟩⟩,
    by simp [Go.result, Mul_run], ?_, ?_⟩
  · show a.Num.val * (i ^ 1 % FE_SIZE % FE_SIZE) % FE_SIZE = 1
    rw [pow_one, Int.emod_emod, mul_emod_emod_right]
    exact hi1
  · show a.Den.val * (j ^ 1 % FE_SIZE % FE_SIZE) % FE_SIZE = 1
    rw [pow_one, Int.emod_emod, mul_emod_emod_right]
    exact hj1

/-- Witness of claim C12 at the element `2/3`. -/
theorem C12_Mul_Inv_is_one_witness :
    (0 : Int) ≤ 2 ∧ (0 : Int) ≤ 3 ∧ (2 : Int) % FE_SIZE ≠ 0 ∧ (3 : Int) % FE_SIZE ≠ 0 ∧
    ∃ inv : FE, (Inv ⟨⟨0, 2⟩, ⟨1, 3⟩⟩).result 2 = some (.ok inv) ∧
      ∀ h1 : Nat, ∃ r : FE, (Mul ⟨⟨0, 2⟩, ⟨1, 3⟩⟩ inv).result h1 = some (.ok r) ∧
        r.Num.val = 1 ∧ r.Den.val = 1 :=
  ⟨by decide, by decide, by decide, by decide,
    C12_Mul_Inv_is_one ⟨⟨0, 2⟩, ⟨1, 3⟩⟩ 2 (by decide) (by decide) (by decide) (by decide)⟩

/-- Claim C13: byte round trip.  For every canonical field element `fe` (`Den = 1`,
`0 ≤ Num < p`) whose denominator was allocated before the call, `ToBytes(fe)` returns 32
bytes that spell `Num` in big-endian order (so with zero bytes on the left), it leaves the
integers of `fe` as they were, and `FromBytes` of those bytes returns no error and an element
with the same `Num` and `Den` as `fe`. -/
theorem C13_bytes_round_trip (fe : FE) (h : Nat) (hden : fe.Den.val = 1)
    (h0 : 0 ≤ fe.Num.val) (h1 : fe.Num.val < FE_SIZE) (ha : fe.Den.addr < h) :
    ∃ (bs : List Nat) (fe1 : FE), (ToBytes fe).result h = some (bs, fe1) ∧
      bs.length = 32 ∧ (∀ b ∈ bs, b < 256) ∧ (Big.beValue bs : Int) = fe.Num.val ∧
      fe1.Num.val = fe.Num.val ∧ fe1.Den.val = fe.Den.val ∧
      ∀ h2 : Nat, ∃ r : FE, (FromBytes bs).result h2 = some (.ok r) ∧
        r.Num.val = fe.Num.val ∧ r.Den.val = fe.Den.val := by
  obtain ⟨⟨i, v⟩, ⟨j, d⟩⟩ := fe
  simp only at hden h0 h1 ha
  subst hden
  obtain ⟨n, rfl⟩ := Int.eq_ofNat_of_zero_le h0
  have hp : FE_SIZE < ((256 ^ 32 : Nat) : Int) := by decide
  have hn : n < 256 ^ 32 := by exact_mod_cast lt_trans h1 hp
  have hl := Big.digits_length_le n hn
  have hv : Big.beValue
      (List.replicate (32 - (Nat.digits 256 n).length) 0 ++ (Nat.digits 256 n).reverse) = n := by
    rw [Big.beValue_zeros_append, Big.beValue_reverse, Nat.ofDigits_digits]
  refine ⟨List.replicate (32 - (Nat.digits 256 n).length) 0 ++ (Nat.digits 256 n).reverse,
    ⟨⟨h + 3, (n : Int)⟩, ⟨h + 4, 1⟩⟩, by simp [Go.result, ToBytes_run i j n h ha hn],
    ?_, ?_, ?_, rfl, rfl, ?_⟩
  · simp only [List.length_append, List.length_replicate, List.length_reverse]
    omega
  · intro b hb
    rcases List.mem_append.mp hb with hb | hb
    · rw [List.eq_of_mem_replicate hb]
      decide
    · exact Nat.digits_lt_base (by decide) (List.mem_reverse.mp hb)
  · rw [hv]
  · intro h2
    have hlt : ((Big.beValue (List.replicate (32 - (Nat.digits 256 n).length) 0
        ++ (Nat.digits 256 n).reverse) : Nat) : Int) < FE_SIZE := by
      rw [hv]
      exact h1
    refine ⟨⟨⟨h2 + 2, Big.beValue (List.replicate (32 - (Nat.digits 256 n).length) 0
        ++ (Nat.digits 256 n).reverse)⟩, ⟨h2 + 3, 1⟩⟩,
      by simp [Go.result, FromBytes_run_lt _ h2 hlt], ?_, rfl⟩
    show ((Big.beValue (List.replicate (32 - (Nat.digits 256 n).length) 0
        ++ (Nat.digits 256 n).reverse) : Nat) : Int) = (n : Int)
    rw [hv]

/-- Witness of claim C13 at the canonical element `258/1`. -/
theorem C13_bytes_round_trip_witness :
    (1 : Int) = 1 ∧ (0 : Int) ≤ 258 ∧ (258 : Int) < FE_SIZE ∧ 1 < 2 ∧
    ∃ (bs : List Nat) (fe1 : FE), (ToBytes ⟨⟨0, 258⟩, ⟨1, 1⟩⟩).result 2 = some (bs, fe1) ∧
      bs.length = 32 ∧ (∀ b ∈ bs, b < 256) ∧ (Big.beValue bs : Int) = 258 ∧
      fe1.Num.val = 258 ∧ fe1.Den.val = 1 ∧
      ∀ h2 : Nat, ∃ r : FE, (FromBytes bs).result h2 = some (.ok r) ∧
        r.Num.val = 258 ∧ r.Den.val = 1 :=
  ⟨rfl, by decide, by decide, by decide,
    C13_bytes_round_trip ⟨⟨0, 258⟩, ⟨1, 1⟩⟩ 2 rfl (by decide) (by decide) (by decide)⟩

/-- Claim C14: for every 32-byte array `b`, `FromBytes(b)` returns `ErrNumOutOfFeSize`
exactly when the big-endian value of `b` is at least `p`; otherwise it returns no error and
the canonical element with `Num` equal to that value and `Den = 1`. -/
theorem C14_FromBytes_range_check (b : List Nat) (h : Nat) (_hlen : b.length = 32)
    (_hb : ∀ x ∈ b, x < 256) :
    ((FromBytes b).result h = some (.error .ErrNumOutOfFeSize)
      ↔ FE_SIZE ≤ (Big.beValue b : Int)) ∧
    ((Big.beValue b : Int) < FE_SIZE →
      (FromBytes b).result h = some (.ok ⟨⟨h + 2, Big.beValue b⟩, ⟨h + 3, 1⟩⟩)) := by
  constructor
  · constructor
    · intro he
      by_contra hc
      have hlt : (Big.beValue b : Int) < FE_SIZE := not_le.mp hc
      simp [Go.result, FromBytes_run_lt b h hlt] at he
    · intro hge
      simp [Go.result, FromBytes_run_ge b h hge]
  · intro hlt
    simp [Go.result, FromBytes_run_lt b h hlt]

/-- Witness of claim C14 at the 32 bytes `ff … ff`, whose value `2^256 - 1` is above `p`:
`FromBytes` returns `ErrNumOutOfFeSize`. -/
theorem C14_FromBytes_range_check_witness :
    (List.replicate 32 255).length = 32 ∧ (∀ x ∈ List.replicate 32 255, x < 256) ∧
    (((FromBytes (List.replicate 32 255)).result 0 = some (.error .ErrNumOutOfFeSize)
      ↔ FE_SIZE ≤ (Big.beValue (List.replicate 32 255) : Int)) ∧
    ((Big.beValue (List.replicate 32 255) : Int) < FE_SIZE →
      (FromBytes (List.replicate 32 255)).result 0
        = some (.ok ⟨⟨0 + 2, Big.beValue (List.replicate 32 255)⟩, ⟨0 + 3, 1⟩⟩))) :=
  ⟨by decide, by decide,
    C14_FromBytes_range_check (List.replicate 32 255) 0 (by decide) (by decide)⟩

/-- Claim C15, on the code: for the canonical element `1/1`, `ToHex` returns 64 characters
of which the first 63 are the character with code 0, not the digit `0`; the result differs
from the 64-character zero-padded hexadecimal text of 1. -/
theorem C15_ToHex_pads_with_NUL :
    (ToHex ⟨⟨0, 1⟩, ⟨1, 1⟩⟩).result 2 =
      some (String.mk (List.replicate 63 (Char.ofNat 0) ++ ['1']), ⟨⟨5, 1⟩, ⟨6, 1⟩⟩) ∧
    (List.replicate 63 (Char.ofNat 0) ++ ['1']).length = 64 ∧
    Char.ofNat 0 ≠ '0' ∧
    String.mk (List.replicate 63 (Char.ofNat 0) ++ ['1'])
      ≠ String.mk (List.replicate 63 '0' ++ ['1']) := by
  refine ⟨by decide, by decide, by decide, by decide⟩

/-- Claim C16, on the code: 4 is a square modulo `p` (of 2), yet `Sqrt(4/1)` returns
`ErrSqrtFailed` and `HasSqrt(4/1)` answers false; `Sqrt` returns `ErrSqrtFailed` for every
canonical element. -/
theorem C16_Sqrt_always_fails :
    (2 : Int) ^ 2 % FE_SIZE = 4 % FE_SIZE ∧
    (Sqrt ⟨⟨0, 4⟩, ⟨1, 1⟩⟩).result 2 = some (.error .ErrSqrtFailed, ⟨⟨5, 4⟩, ⟨6, 1⟩⟩) ∧
    (HasSqrt ⟨⟨0, 4⟩, ⟨1, 1⟩⟩).result 2 = some (false, ⟨⟨5, 4⟩, ⟨6, 1⟩⟩) ∧
    ∀ v : Int, (Sqrt ⟨⟨0, v⟩, ⟨1, 1⟩⟩).result 2
      = some (.error .ErrSqrtFailed, ⟨⟨5, v⟩, ⟨6, 1⟩⟩) := by
  have inv1 : Big.ModInverse (1 : Int) FE_SIZE = some 1 := by decide
  have e1 : (1 : Int) ^ 1 % FE_SIZE = 1 := by decide
  have hs : ∀ v : Int, (Sqrt ⟨⟨0, v⟩, ⟨1, 1⟩⟩).result 2
      = some (.error .ErrSqrtFailed, ⟨⟨5, v⟩, ⟨6, 1⟩⟩) := by
    intro v
    have t := Sqrt_run ⟨⟨0, v⟩, ⟨1, 1⟩⟩ 2 1 Nat.one_lt_two Int.one_nonneg inv1
    rw [e1, mul_one] at t
    simp [Go.result, t]
  refine ⟨by decide, hs 4, ?_, hs⟩
  have t := HasSqrt_run ⟨⟨0, 4⟩, ⟨1, 1⟩⟩ 2 1 Nat.one_lt_two Int.one_nonneg inv1
  rw [e1, mul_one] at t
  simp [Go.result, t]

/-- Claim C17, on the code: for `a = 2/3`, `ToBigInt` returns the product of 2 and the
inverse of 3, not reduced: the value is congruent to `2/3` but it is not below `p`.  It does
not fit 32 bytes either, so `ToBytes(2/3)` panics. -/
theorem C17_ToBigInt_not_reduced :
    (ToBigInt ⟨⟨0, 2⟩, ⟨1, 3⟩⟩).result 2 =
      some (some ⟨5, 154389452316421593898094646678250543804359979554187418719276778677211779562218⟩,
        ⟨⟨5, 154389452316421593898094646678250543804359979554187418719276778677211779562218⟩, ⟨6, 1⟩⟩) ∧
    FE_SIZE ≤ 154389452316421593898094646678250543804359979554187418719276778677211779562218 ∧
    154389452316421593898094646678250543804359979554187418719276778677211779562218 * 3 % FE_SIZE = 2 % FE_SIZE ∧
    (ToBytes ⟨⟨0, 2⟩, ⟨1, 3⟩⟩).result 2 = none := by
  refine ⟨by decide, by decide, by decide, by decide⟩

end Secp256k1

namespace Fields

/-- A sum of two numbers that are not negative and does not exceed the greatest `int` is
not changed by wrapping. -/
theorem wrap_of_range (x : Int) (h0 : 0 ≤ x) (h1 : x ≤ maxInt) : wrap x = x := by
  unfold wrap
  unfold maxInt at h1
  omega

/-- The function `NewFieldElement` returns an element exactly for `0 ≤ num < prime`, and
then the element holds the two arguments. -/
theorem NewFieldElement_ok (n p : Int) (a : FieldElement) (h : NewFieldElement n p = .ok a) :
    a = ⟨n, p⟩ ∧ 0 ≤ n ∧ n < p := by
  unfold NewFieldElement at h
  split at h
  · exact absurd h (by simp)
  · rename_i hc
    injection h with h
    exact ⟨h.symm, by omega, by omega⟩

/-- Claim C18, as stated, fails: `2^63 - 25` is a prime that a Go `int` holds, the element
`2^63 - 26` is created without error, and adding it to itself returns
`ErrNumOutOfFieldRange`, because the `int` sum wraps to a negative number. -/
theorem C18_Add_overflow_counterexample :
    Nat.Prime 9223372036854775783 ∧ (9223372036854775783 : Int) ≤ maxInt ∧
    NewFieldElement 9223372036854775782 9223372036854775783
      = .ok ⟨9223372036854775782, 9223372036854775783⟩ ∧
    FieldElement.Add ⟨9223372036854775782, 9223372036854775783⟩
      ⟨9223372036854775782, 9223372036854775783⟩ = some (.error .ErrNumOutOfFieldRange) ∧
    wrap (9223372036854775782 + 9223372036854775782) = -52 :=
  ⟨Secp256k1.prime_9223372036854775783, by decide, by decide, by decide, by decide⟩

/-- Claim C18, amended: for every two elements `a`, `b` created by `NewFieldElement` with the
same prime and with `a.num + b.num` not above the greatest `int`, `a.Add(b)` returns no
error and the element with the same prime and `num = (a.num + b.num) mod prime`, which lies
in `[0, prime)`. -/
theorem C18_Add_without_overflow (n m p : Int) (a b : FieldElement)
    (ha : NewFieldElement n p = .ok a) (hb : NewFieldElement m p = .ok b)
    (hs : n + m ≤ maxInt) :
    a.Add b = some (.ok ⟨(n + m) % p, p⟩) ∧ 0 ≤ (n + m) % p ∧ (n + m) % p < p := by
  obtain ⟨rfl, hn0, hnp⟩ := NewFieldElement_ok n p a ha
  obtain ⟨rfl, hm0, hmp⟩ := NewFieldElement_ok m p b hb
  have hp : 0 < p := by omega
  have h0 : 0 ≤ (n + m) % p := Int.emod_nonneg _ (ne_of_gt hp)
  have h1 : (n + m) % p < p := Int.emod_lt_of_pos _ hp
  refine ⟨?_, h0, h1⟩
  have hw : wrap (n + m) = n + m := wrap_of_range _ (by omega) hs
  have ht : Int.tmod (n + m) p = (n + m) % p := Int.tmod_eq_emod (by omega) (le_of_lt hp)
  have hc : ¬ ((n + m) % p ≥ p ∨ (n + m) % p < 0) := by omega
  simp [FieldElement.Add, rem, hw, ne_of_gt hp, ht, NewFieldElement, hc]

/-- Witness of the amended claim C18: 44 + 33 in the field of modulus 57 gives 20. -/
theorem C18_Add_without_overflow_witness :
    NewFieldElement 44 57 = .ok ⟨44, 57⟩ ∧ NewFieldElement 33 57 = .ok ⟨33, 57⟩ ∧
    (44 : Int) + 33 ≤ maxInt ∧
    (FieldElement.Add ⟨44, 57⟩ ⟨33, 57⟩ = some (.ok ⟨(44 + 33) % 57, 57⟩) ∧
      (0 : Int) ≤ (44 + 33) % 57 ∧ ((44 : Int) + 33) % 57 < 57) ∧
    ((44 : Int) + 33) % 57 = 20 :=
  ⟨by decide, by decide, by decide,
    C18_Add_without_overflow 44 33 57 ⟨44, 57⟩ ⟨33, 57⟩ (by decide) (by decide) (by decide),
    by decide⟩

/-- Claim C19, on the code: the element `44 % 57` is created without error and `Pow(3)`
returns `num = 47`, the exclusive or of 44 and 3, where the power `44^3 mod 57` is 26. -/
theorem C19_Pow_is_xor :
    NewFieldElement 44 57 = .ok ⟨44, 57⟩ ∧
    FieldElement.Pow ⟨44, 57⟩ 3 = some (.ok ⟨47, 57⟩) ∧
    Int.xor 44 3 = 47 ∧ (44 : Int) ^ 3 % 57 = 26 := by
  refine ⟨by decide, by decide, by decide, by decide⟩

end Fields
